import Mathlib

/-!
# touchdaemon: a verification development

A shallow embedding of `src/touchdaemon.c` (the keyboard-activity monitor that
switches a pointing device off while the user types).

Conventions of the embedding

* `unsigned char` objects are natural numbers below 256, `int` objects are
  integers; where C promotes an `unsigned char` to `int` and complements it, the
  32-bit two's-complement bit pattern of the result is used (`int_not`).
* The X server and the clock are external.  Each call that asks them something
  takes the answer as an argument: the keymap returned by `XQueryKeymap`, the
  outcome of `XGetDeviceProperty` (`none` when the call does not return
  `Success` or reports `real_type == None`), the double returned by `get_time`
  in a pass of the loop.
* `XChangeDeviceProperty` is recorded in the state: the property value on the
  server and the chronological list of written bytes.
* A finite `double` is the rational it stands for (`IsDouble`); the sum of two
  doubles is the exact sum rounded to the nearest double, ties to even
  (`round_double`).  A rounded sum beyond the largest finite double stands for
  `+inf`: compared with a finite double it gives what `+inf` gives.
-/

namespace Touchdaemon

/-! ## Constants and machine integers -/

/-- The macro `KEYMAP_SIZE`. -/
def KEYMAP_SIZE : Nat := 32

/-- The static `disable_state`. -/
def disable_state : Int := 0

/-- Bit pattern of `~x` for an `int` holding `x` (32-bit two's complement). -/
def int_not (x : Nat) : Nat := 2 ^ 32 - 1 - x

/-- Value stored when an `int` bit pattern is assigned to an `unsigned char`. -/
def to_uchar (x : Nat) : Nat := x % 256

/-- Conversion `(char)x` of an `int` to a (signed, 8-bit) `char`. -/
def to_char (x : Int) : Int := (x + 128) % 256 - 128

/-- The byte seen when a `char` object is read through `const unsigned char *`. -/
def char_byte (c : Int) : Nat := (c % 256).toNat

/-- Value of an `int` expression whose exact value is `x` (32 bits, wrapping). -/
def to_int (x : Int) : Int := (x + 2 ^ 31) % 2 ^ 32 - 2 ^ 31

/-- Value stored when an `int` is assigned to an `unsigned int`. -/
def to_uint (x : Int) : Nat := (x % 2 ^ 32).toNat

/-- Read of element `i` of an `unsigned char` array. -/
def byte_at (a : List Nat) (i : Nat) : Nat := a.getD i 0

/-- Bit `k` of a keymap: byte `k / 8`, bit `k % 8`. -/
def key_bit (a : List Nat) (k : Nat) : Bool := (byte_at a (k / 8)).testBit (k % 8)

/-- A well-formed keymap: `KEYMAP_SIZE` objects of type `unsigned char`. -/
def IsKeymap (a : List Nat) : Prop := a.length = KEYMAP_SIZE ∧ ∀ b ∈ a, b < 256

instance (a : List Nat) : Decidable (IsKeymap a) := by
  unfold IsKeymap; exact inferInstance

/-! ## keyboard_activity -/

/-- First loop of `keyboard_activity`, entered at index `KEYMAP_SIZE - n` with
`ret = 0`: sets `ret = 1` and leaves at the first byte with a newly pressed,
counted key. -/
def scan_new_press (key_state old_key_state keyboard_mask : List Nat) : Nat → Int
  | 0 => 0
  | n + 1 =>
    let i := KEYMAP_SIZE - (n + 1)
    if (byte_at key_state i &&& int_not (byte_at old_key_state i))
        &&& byte_at keyboard_mask i ≠ 0 then 1
    else scan_new_press key_state old_key_state keyboard_mask n

/-- Second loop of `keyboard_activity`, entered at index `KEYMAP_SIZE - n` with
the given `ret`: sets `ret = 0` and leaves at the first byte holding a pressed
key outside the mask. -/
def scan_unmasked (key_state keyboard_mask : List Nat) (ret : Int) : Nat → Int
  | 0 => ret
  | n + 1 =>
    let i := KEYMAP_SIZE - (n + 1)
    if byte_at key_state i &&& int_not (byte_at keyboard_mask i) ≠ 0 then 0
    else scan_unmasked key_state keyboard_mask ret n

/-- Third loop of `keyboard_activity`: `old_key_state[i] = key_state[i]`. -/
def copy_key_state (key_state : List Nat) : List Nat :=
  (List.range KEYMAP_SIZE).map (byte_at key_state)

/-- The function `keyboard_activity`.  `key_state` is what `XQueryKeymap`
delivers; the result is the returned `int` and the new static `old_key_state`. -/
def keyboard_activity (ignore_modifier_combos : Int) (keyboard_mask : List Nat)
    (old_key_state key_state : List Nat) : Int × List Nat :=
  let ret := scan_new_press key_state old_key_state keyboard_mask KEYMAP_SIZE
  let ret := if ignore_modifier_combos ≠ 0 then
      scan_unmasked key_state keyboard_mask ret KEYMAP_SIZE
    else ret
  (ret, copy_key_state key_state)

/-- The same decision taken without leaving either loop early: every one of the
`KEYMAP_SIZE` bytes is inspected in both scans. -/
def activity_full_scan (ignore_modifier_combos : Int) (keyboard_mask : List Nat)
    (old_key_state key_state : List Nat) : Int :=
  let pressed := (List.range KEYMAP_SIZE).map fun i =>
    decide ((byte_at key_state i &&& int_not (byte_at old_key_state i))
      &&& byte_at keyboard_mask i ≠ 0)
  let unmasked := (List.range KEYMAP_SIZE).map fun i =>
    decide (byte_at key_state i &&& int_not (byte_at keyboard_mask i) ≠ 0)
  let ret : Int := if pressed.foldl (fun acc b => acc || b) false then 1 else 0
  if ignore_modifier_combos ≠ 0 then
    (if unmasked.foldl (fun acc b => acc || b) false then 0 else ret)
  else ret

/-! ## The device state controller -/

/-- The statics `pad_disabled`, `previous_state` and `background`, together with
what the program has done to the outside: the value of the device property on
the server after the last `XChangeDeviceProperty`, the bytes written so far (in
order), the number of `XGetDeviceProperty` calls, and the lines printed. -/
structure Controller where
  pad_disabled : Bool
  previous_state : Int
  background : Int
  device : Nat
  writes : List Nat
  reads : Nat
  output : List String
  deriving DecidableEq, Repr

/-- The function `store_current_touchpad_state`.  `rd` is the outcome of
`XGetDeviceProperty`: `some d` when it returns `Success` with a real type and
`data[0]` holds `d`, otherwise `none`. -/
def store_current_touchpad_state (rd : Option Nat) (s : Controller) : Controller :=
  let s := { s with reads := s.reads + 1 }
  match rd with
  | some d => { s with previous_state := (to_uchar d : Nat) }
  | none => s

/-- The call `printf(line)`, made only when `background` is zero. -/
def print_unless_background (line : String) (s : Controller) : Controller :=
  if s.background = 0 then { s with output := s.output ++ [line] } else s

/-- The call `XChangeDeviceProperty(..., XA_INTEGER, 8, PropModeReplace, &data, 1)`
followed by `XFlush`: the one byte of `data` replaces the property. -/
def XChangeDeviceProperty (data : Int) (s : Controller) : Controller :=
  { s with device := char_byte data, writes := s.writes ++ [char_byte data] }

/-- The function `toggle_touchpad`. -/
def toggle_touchpad (enable : Bool) (rd : Option Nat) (s : Controller) : Controller :=
  if s.pad_disabled && enable then
    let data := to_char s.previous_state
    let s := { s with pad_disabled := false }
    let s := print_unless_background "Enable\n" s
    XChangeDeviceProperty data s
  else if !s.pad_disabled && !enable && s.previous_state != disable_state then
    let s := store_current_touchpad_state rd s
    let s := { s with pad_disabled := true }
    let data := to_char disable_state
    let s := print_unless_background "Disable\n" s
    XChangeDeviceProperty data s
  else s

/-- The process around the controller, as far as `signal_handler` touches it:
the configured pid file, the paths unlinked and the signals re-raised. -/
structure Process where
  ctl : Controller
  pid_file : Option String
  unlinked : List String
  raised : List Int
  deriving DecidableEq, Repr

/-- The function `signal_handler`. -/
def signal_handler (signum : Int) (rd : Option Nat) (p : Process) : Process :=
  let ctl := toggle_touchpad true rd p.ctl
  let unlinked := match p.pid_file with
    | some f => p.unlinked ++ [f]
    | none => p.unlinked
  { p with ctl := ctl, unlinked := unlinked, raised := p.raised ++ [signum] }

/-- The end of `main` before the loop: `pad_disabled = False;
store_current_touchpad_state();` on the zero-initialised statics, with nothing
written yet.  `device` is the property value found on the server. -/
def startup (background : Int) (device : Nat) (rd : Option Nat) : Controller :=
  store_current_touchpad_state rd
    { pad_disabled := false, previous_state := 0, background := background,
      device := device, writes := [], reads := 0, output := [] }

/-- A sequence of `toggle_touchpad` calls, each with its argument and with the
outcome the device read would have in it. -/
def toggle_calls : List (Bool × Option Nat) → Controller → Controller
  | [], s => s
  | (enable, rd) :: rest, s => toggle_calls rest (toggle_touchpad enable rd s)

/-! ## Double arithmetic -/

/-- Round to the nearest integer, a tie going to the even neighbour. -/
def rne (q : ℚ) : ℤ :=
  if q - ⌊q⌋ < 1 / 2 then ⌊q⌋
  else if 1 / 2 < q - ⌊q⌋ then ⌊q⌋ + 1
  else if ⌊q⌋ % 2 = 0 then ⌊q⌋ else ⌊q⌋ + 1

/-- The exponent of the last place of the double nearest to `x`: 53 significant
bits, and never below the exponent of the subnormal numbers. -/
def double_exponent (x : ℚ) : ℤ := max (Int.log 2 |x| - 52) (-1074)

/-- The double nearest to `x` (round to nearest, ties to even), with no bound on
the exponent from above. -/
def round_double (x : ℚ) : ℚ :=
  (rne (x / 2 ^ double_exponent x) : ℚ) * 2 ^ double_exponent x

/-- The rational `x` is the value of a finite double. -/
def IsDouble (x : ℚ) : Prop := round_double x = x ∧ |x| < 2 ^ 1024

instance (x : ℚ) : Decidable (IsDouble x) := by
  unfold IsDouble; exact inferInstance

/-- The function `get_time`, given what `gettimeofday` stores:
`tv.tv_sec + tv.tv_usec / 1000000.0`, each conversion, the quotient and the sum
rounded to double. -/
def get_time (tv_sec tv_usec : Int) : ℚ :=
  round_double (round_double tv_sec + round_double (round_double tv_usec / 1000000))

/-! ## The poll loop -/

/-- What `main_loop` is given and what stays fixed while it runs. -/
structure LoopConfig where
  idle_time : ℚ
  poll_delay : Int
  ignore_modifier_combos : Int
  keyboard_mask : List Nat

/-- The locals of `main_loop` and the statics it drives. -/
structure Loop where
  last_activity : ℚ
  old_key_state : List Nat
  ctl : Controller

/-- What the outside delivers in one pass of the loop: the double returned by
`get_time()`, the keymap of `XQueryKeymap`, and the outcome of a device read
should one be made. -/
structure Tick where
  current_time : ℚ
  key_state : List Nat
  rd : Option Nat

/-- The entry of `main_loop`: `last_activity = 0.0` and the discarded first
`keyboard_activity` call. -/
def main_loop_enter (cfg : LoopConfig) (key_state old_key_state : List Nat)
    (ctl : Controller) : Loop :=
  { last_activity := 0
    old_key_state :=
      (keyboard_activity cfg.ignore_modifier_combos cfg.keyboard_mask old_key_state key_state).2
    ctl := ctl }

/-- The value of `last_activity` after the first statement pair of the loop
body. -/
def next_last_activity (cfg : LoopConfig) (tk : Tick) (l : Loop) : ℚ :=
  if (keyboard_activity cfg.ignore_modifier_combos cfg.keyboard_mask
      l.old_key_state tk.key_state).1 ≠ 0
  then tk.current_time else l.last_activity

/-- One pass through the body of the `for (;;)` of `main_loop`.  The test
`current_time > last_activity + idle_time` compares with the rounded sum. -/
def main_loop_tick (cfg : LoopConfig) (tk : Tick) (l : Loop) : Loop :=
  let last_activity := next_last_activity cfg tk l
  let old_key_state := (keyboard_activity cfg.ignore_modifier_combos cfg.keyboard_mask
      l.old_key_state tk.key_state).2
  let ctl :=
    if tk.current_time > round_double (last_activity + cfg.idle_time) then
      toggle_touchpad true tk.rd l.ctl
    else
      toggle_touchpad false tk.rd l.ctl
  { last_activity := last_activity, old_key_state := old_key_state, ctl := ctl }

/-- Finitely many passes of the loop, in order. -/
def main_loop_run (cfg : LoopConfig) : List Tick → Loop → Loop
  | [], l => l
  | tk :: rest, l => main_loop_run cfg rest (main_loop_tick cfg tk l)

/-- The idle duration of a pass: `t - last_activity`, with `last_activity`
already set to `t` if the sample of this pass reports activity. -/
def idle_at (cfg : LoopConfig) (tk : Tick) (l : Loop) : ℚ :=
  tk.current_time - next_last_activity cfg tk l

/-- Every pass of the run has an idle duration of at most `idle_time`. -/
def AllIdleWithin (cfg : LoopConfig) : List Tick → Loop → Prop
  | [], _ => True
  | tk :: rest, l =>
    idle_at cfg tk l ≤ cfg.idle_time ∧ AllIdleWithin cfg rest (main_loop_tick cfg tk l)

instance AllIdleWithin.decidable (cfg : LoopConfig) :
    (ticks : List Tick) → (l : Loop) → Decidable (AllIdleWithin cfg ticks l)
  | [], _ => isTrue trivial
  | tk :: rest, l =>
    @instDecidableAnd _ _ _ (AllIdleWithin.decidable cfg rest (main_loop_tick cfg tk l))

/-- No pass of the run is due: in each, `current_time` is at most the rounded sum
`last_activity + idle_time`, so that the test of `main_loop` is false. -/
def NoneDue (cfg : LoopConfig) : List Tick → Loop → Prop
  | [], _ => True
  | tk :: rest, l =>
    tk.current_time ≤ round_double (next_last_activity cfg tk l + cfg.idle_time) ∧
      NoneDue cfg rest (main_loop_tick cfg tk l)

instance NoneDue.decidable (cfg : LoopConfig) :
    (ticks : List Tick) → (l : Loop) → Decidable (NoneDue cfg ticks l)
  | [], _ => isTrue trivial
  | tk :: rest, l =>
    @instDecidableAnd _ _ _ (NoneDue.decidable cfg rest (main_loop_tick cfg tk l))

/-- The values `keyboard_activity` returns along a run of keymaps. -/
def samples (cfg : LoopConfig) : List Tick → List Nat → List Int
  | [], _ => []
  | tk :: rest, old =>
    (keyboard_activity cfg.ignore_modifier_combos cfg.keyboard_mask old tk.key_state).1
      :: samples cfg rest
        (keyboard_activity cfg.ignore_modifier_combos cfg.keyboard_mask old tk.key_state).2

/-- Something that reaches the controller from outside: a pass of the poll loop
or a handled signal. -/
inductive Event where
  | tick (tk : Tick)
  | signal (signum : Int) (rd : Option Nat)

/-- The loop state together with the process bookkeeping of the handler. -/
structure Daemon where
  loop : Loop
  pid_file : Option String
  unlinked : List String
  raised : List Int

/-- The effect of one event on the daemon. -/
def Daemon.step (cfg : LoopConfig) (e : Event) (d : Daemon) : Daemon :=
  match e with
  | .tick tk => { d with loop := main_loop_tick cfg tk d.loop }
  | .signal signum rd =>
    let p := signal_handler signum rd
      { ctl := d.loop.ctl, pid_file := d.pid_file, unlinked := d.unlinked, raised := d.raised }
    { loop := { d.loop with ctl := p.ctl }, pid_file := p.pid_file,
      unlinked := p.unlinked, raised := p.raised }

/-- The effect of a sequence of events. -/
def Daemon.run (cfg : LoopConfig) : List Event → Daemon → Daemon
  | [], d => d
  | e :: rest, d => Daemon.run cfg rest (Daemon.step cfg e d)

/-! ## The key mask -/

/-- The function `clear_bit` applied to an array of `ptr.length` bytes.  The
result is `none` when the byte addressed lies outside the array or the shift
count is negative; `/` and `%` on `int` truncate towards zero. -/
def clear_bit (ptr : List Nat) (bit : Int) : Option (List Nat) :=
  let byte_num := Int.tdiv bit 8
  let bit_num := Int.tmod bit 8
  if 0 ≤ byte_num ∧ byte_num < ptr.length ∧ 0 ≤ bit_num then
    some (ptr.set byte_num.toNat
      (to_uchar (byte_at ptr byte_num.toNat &&& int_not (1 <<< bit_num.toNat))))
  else none

/-- What `XGetModifierMapping` returns: `modifiermap` holds `8 * max_keypermod`
key codes. -/
structure XModifierKeymap where
  max_keypermod : Nat
  modifiermap : List Nat

/-- A well-formed modifier map: `8 * max_keypermod` objects of type `KeyCode`
(`unsigned char`). -/
def IsModifierKeymap (m : XModifierKeymap) : Prop :=
  m.modifiermap.length = 8 * m.max_keypermod ∧ ∀ kc ∈ m.modifiermap, kc < 256

instance (m : XModifierKeymap) : Decidable (IsModifierKeymap m) := by
  unfold IsModifierKeymap; exact inferInstance

/-- Second loop of `setup_keyboard_mask`, entered at index
`8 * max_keypermod - n`. -/
def clear_modifiers (modifiers : XModifierKeymap) : Nat → List Nat → Option (List Nat)
  | 0, keyboard_mask => some keyboard_mask
  | n + 1, keyboard_mask =>
    let i := 8 * modifiers.max_keypermod - (n + 1)
    let kc := byte_at modifiers.modifiermap i
    if kc ≠ 0 then
      match clear_bit keyboard_mask kc with
      | some keyboard_mask => clear_modifiers modifiers n keyboard_mask
      | none => none
    else clear_modifiers modifiers n keyboard_mask

/-- The function `setup_keyboard_mask`; the result is the static
`keyboard_mask`.  `modifiers` is what `XGetModifierMapping` returns if asked. -/
def setup_keyboard_mask (ignore_modifier_keys : Int) (modifiers : XModifierKeymap) :
    Option (List Nat) :=
  let keyboard_mask := List.replicate KEYMAP_SIZE 0xff
  if ignore_modifier_keys ≠ 0 then
    clear_modifiers modifiers (8 * modifiers.max_keypermod) keyboard_mask
  else some keyboard_mask

/-! ## Command line -/

/-- One result of `getopt(argc, argv, "i:m:dp:kKD:?")`, with `optarg` already
converted where the option has a numeric argument: the finite double that `atof`
returns, the `int` that `atoi` returns. -/
inductive Opt where
  | i (optarg : ℚ)
  | m (optarg : Int)
  | d
  | p (optarg : String)
  | k
  | K
  | D (optarg : Int)
  | other

/-- The locals of `main` and the statics that the option loop sets. -/
structure Options where
  idle_time : ℚ
  poll_delay : Int
  dev_id : Nat
  have_dev_id : Int
  background : Int
  pid_file : Option String
  ignore_modifier_keys : Int
  ignore_modifier_combos : Int

/-- The initialisers at the head of `main` and the zero-initialised statics. -/
def initial_options : Options :=
  { idle_time := 1, poll_delay := 200000, dev_id := 0, have_dev_id := 0,
    background := 0, pid_file := none, ignore_modifier_keys := 0,
    ignore_modifier_combos := 0 }

/-- The `switch (c)` of `main`; `usage()` ends the process with status 1. -/
def apply_option (o : Options) : Opt → Except Nat Options
  | .i optarg => .ok { o with idle_time := optarg }
  | .m optarg => .ok { o with poll_delay := to_int (to_int optarg * 1000) }
  | .d => .ok { o with background := 1 }
  | .p optarg => .ok { o with pid_file := some optarg }
  | .k => .ok { o with ignore_modifier_keys := 1 }
  | .K => .ok { o with ignore_modifier_combos := 1, ignore_modifier_keys := 1 }
  | .D optarg => .ok { o with dev_id := to_uint (to_int optarg), have_dev_id := 1 }
  | .other => .error 1

/-- The `while ((c = getopt(...)) != EOF)` loop of `main`. -/
def parse_options : List Opt → Options → Except Nat Options
  | [], o => .ok o
  | c :: rest, o =>
    match apply_option o c with
    | .ok o => parse_options rest o
    | .error status => .error status

/-- The head of `main` up to and including `if (idle_time <= 0.0) usage();`.
The `idle_time` of the result is the value `main` later passes to
`main_loop`. -/
def main_options (argv : List Opt) : Except Nat Options :=
  match parse_options argv initial_options with
  | .ok o => if o.idle_time ≤ 0 then .error 1 else .ok o
  | .error status => .error status

/-! ## Device resolution -/

/-- An entry of `XListInputDevices` together with what the server answers about
the device: whether `XOpenDevice` returns a device, and the array returned by
`XListDeviceProperties` (`none` for `NULL`; `nprops` is its length). -/
structure XDeviceInfo where
  id : Nat
  type : Nat
  opens : Bool
  properties : Option (List Nat)

/-- The atoms `dp_get_device` interns. -/
structure Atoms where
  touchpad_type : Nat
  mouse_type : Nat
  trackball_type : Nat
  device_prop : Nat

/-- The lines `dp_get_device` writes to `stderr`. -/
inductive Message where
  | failed_to_open_device
  | no_properties_on_device
  | could_not_identify_property
  | unable_to_find_a_device
  | unable_to_find_the_specified_device
  deriving DecidableEq, Repr

/-- The locals `dev` (the id of the opened device, `none` for `NULL`) and
`error`, the static `touchpad_off_prop`, and the lines printed. -/
structure Resolution where
  dev : Option Nat
  touchpad_off_prop : Nat
  error : Int
  messages : List Message
  deriving DecidableEq, Repr

/-- Read of element `i` of an `Atom` array. -/
def atom_at (a : List Nat) (i : Nat) : Nat := a.getD i 0

/-- The loop `while (nprops--) { if (device_prop == properties[nprops]) { ...; break; } }`
entered with `nprops = n`: the value of `nprops` after the loop and the static
`touchpad_off_prop`. -/
def find_property (device_prop : Nat) (properties : List Nat) (touchpad_off_prop : Nat) :
    Nat → Int × Nat
  | 0 => (-1, touchpad_off_prop)
  | n + 1 =>
    if device_prop = atom_at properties n then ((n : Int), atom_at properties n)
    else find_property device_prop properties touchpad_off_prop n

/-- The body of the `if` in the device loop of `dp_get_device`, for the device
that passed the test; every path through it leaves the device loop. -/
def examine_device (device_prop : Nat) (d : XDeviceInfo) (r : Resolution) : Resolution :=
  if !d.opens then
    { r with error := 1, messages := r.messages ++ [.failed_to_open_device] }
  else
    let r := { r with dev := some d.id }
    match d.properties with
    | none => { r with error := 1, messages := r.messages ++ [.no_properties_on_device] }
    | some properties =>
      if properties.length = 0 then
        { r with error := 1, messages := r.messages ++ [.no_properties_on_device] }
      else
        let found := find_property device_prop properties r.touchpad_off_prop properties.length
        let r := { r with touchpad_off_prop := found.2 }
        if found.1 = 0 then
          { r with error := 1, messages := r.messages ++ [.could_not_identify_property] }
        else r

/-- The loop `while (ndevices--)` of `dp_get_device`, entered with
`ndevices = n`. -/
def scan_devices (atoms : Atoms) (dev_id : Nat) (have_dev_id : Int) (info : List XDeviceInfo)
    (r : Resolution) : Nat → Resolution
  | 0 => r
  | n + 1 =>
    match info.get? n with
    | none => scan_devices atoms dev_id have_dev_id info r n
    | some d =>
      if (have_dev_id = 0 ∧ (d.type = atoms.touchpad_type ∨ d.type = atoms.mouse_type
            ∨ d.type = atoms.trackball_type)) ∨ dev_id = d.id then
        examine_device atoms.device_prop d r
      else scan_devices atoms dev_id have_dev_id info r n

/-- The function `dp_get_device`: `dev` of the result is the returned pointer.
`touchpad_off_prop` is the value of the static on entry. -/
def dp_get_device (atoms : Atoms) (info : List XDeviceInfo) (dev_id : Nat) (have_dev_id : Int)
    (touchpad_off_prop : Nat) : Resolution :=
  let r := scan_devices atoms dev_id have_dev_id info
    { dev := none, touchpad_off_prop := touchpad_off_prop, error := 0, messages := [] }
    info.length
  if r.error ≠ 0 then
    let line := if have_dev_id = 0 then Message.unable_to_find_a_device
      else Message.unable_to_find_the_specified_device
    { r with messages := r.messages ++ [line], dev := none }
  else r

/-- The statement `if (!(dev = dp_get_device(display, dev_id, have_dev_id))) exit(2);`
of `main`: the exit status, or the resolution `main` goes on with. -/
def resolve_device (atoms : Atoms) (info : List XDeviceInfo) (dev_id : Nat) (have_dev_id : Int)
    (touchpad_off_prop : Nat) : Except Nat Resolution :=
  let r := dp_get_device atoms info dev_id have_dev_id touchpad_off_prop
  match r.dev with
  | none => .error 2
  | some _ => .ok r


/-! ## Predicates and sample data used in the statements -/

/-- Some byte at an index in `[KEYMAP_SIZE - n, KEYMAP_SIZE)` holds a newly
pressed, counted key. -/
def NewPressFrom (ks old mask : List Nat) (n : Nat) : Prop :=
  ∃ i, KEYMAP_SIZE - n ≤ i ∧ i < KEYMAP_SIZE ∧
    (byte_at ks i &&& int_not (byte_at old i)) &&& byte_at mask i ≠ 0

/-- Some byte at an index in `[KEYMAP_SIZE - n, KEYMAP_SIZE)` holds a pressed
key outside the mask. -/
def UnmaskedFrom (ks mask : List Nat) (n : Nat) : Prop :=
  ∃ i, KEYMAP_SIZE - n ≤ i ∧ i < KEYMAP_SIZE ∧
    byte_at ks i &&& int_not (byte_at mask i) ≠ 0

/-- A keymap with every bit set. -/
def all_ones : List Nat := List.replicate 32 255

/-- A keymap with no bit set. -/
def no_keys : List Nat := List.replicate 32 0

/-- A keymap in which only key code 38 is pressed. -/
def key_38 : List Nat := (List.replicate 32 0).set 4 64

/-- What holds of the controller in every state reached from `startup`:
`previous_state` is a byte, and the last byte written, if any, is 0 while
`pad_disabled` is set and is `previous_state` while it is clear. -/
def ControllerInv (s : Controller) : Prop :=
  0 ≤ s.previous_state ∧ s.previous_state < 256 ∧
  ∀ w, s.writes.getLast? = some w →
    (s.pad_disabled = true → w = 0) ∧ (s.pad_disabled = false → (w : Int) = s.previous_state)

/-- The configuration of the scenarios: idle threshold 1.0 s, poll interval
200 ms, every key counted. -/
def sample_config : LoopConfig :=
  { idle_time := 1, poll_delay := 200000, ignore_modifier_combos := 0, keyboard_mask := all_ones }

/-- A loop state in which the pad has just been suppressed at time 100 s: the
device read 1 at startup and again before the suppressing write, key 38 is
held, nothing is printed. -/
def suppressed_loop : Loop :=
  { last_activity := 100, old_key_state := key_38,
    ctl := toggle_touchpad false (some 1) (startup 1 1 (some 1)) }

/-- The loop just entered with the device enabled: the property read 1 at
startup, no key is down, nothing has been written. -/
def fresh_loop : Loop := main_loop_enter sample_config no_keys no_keys (startup 1 1 (some 1))

/-- Six passes of a run with a poll interval of 200 ms, starting at 100 s, each
a little late as `usleep` and the server round trips make them: 0.203125,
0.40625, 0.609375, 0.8125 and 1.015625 s after the first.  Key 38 goes down in
the first pass and stays down. -/
def six_ticks : List Tick :=
  [⟨100, key_38, some 1⟩, ⟨100 + 13 / 64, key_38, some 1⟩, ⟨100 + 26 / 64, key_38, some 1⟩,
   ⟨100 + 39 / 64, key_38, some 1⟩, ⟨100 + 52 / 64, key_38, some 1⟩,
   ⟨100 + 65 / 64, key_38, some 1⟩]

/-- The double nearest to 0.7, which `atof("0.7")` returns. -/
def double_0_7 : ℚ := 3152519739159347 / 2 ^ 52

/-- The double nearest to 100.7, which `get_time` returns for `tv_sec = 100`,
`tv_usec = 700000`. -/
def double_100_7 : ℚ := 7086132538690765 / 2 ^ 46

/-- The configuration of `-i 0.7`: idle threshold `double_0_7`, every key
counted. -/
def config_0_7 : LoopConfig :=
  { idle_time := double_0_7, poll_delay := 200000, ignore_modifier_combos := 0,
    keyboard_mask := all_ones }

/-- Key code `k` stands at an index in `[8 * max_keypermod - n, 8 * max_keypermod)`
of the modifier map. -/
def OccursFrom (m : XModifierKeymap) (n k : Nat) : Prop :=
  ∃ i, 8 * m.max_keypermod - n ≤ i ∧ i < 8 * m.max_keypermod ∧ byte_at m.modifiermap i = k

/-- A modifier map with one key per modifier: key codes 50, 37 and 64 are
modifiers, the other slots are empty. -/
def sample_modifiers : XModifierKeymap :=
  { max_keypermod := 1, modifiermap := [50, 0, 37, 64, 0, 0, 0, 0] }

/-- A pointing device of type 5 with id 12 that can be opened and has the given
properties. -/
def pad_with (properties : List Nat) : XDeviceInfo :=
  { id := 12, type := 5, opens := true, properties := some properties }

/-- Atoms 5, 6, 7 for the three device types and 150 for `Device Enabled`. -/
def sample_atoms : Atoms :=
  { touchpad_type := 5, mouse_type := 6, trackball_type := 7, device_prop := 150 }

/-! ## Theorems -/

/-! ### Keyboard activity -/

theorem byte_and_not_and_ne_zero (c p m : Nat) (hc : c < 256) (hp : p < 256) :
    (c &&& int_not p) &&& m ≠ 0 ↔
      ∃ j, j < 8 ∧ c.testBit j = true ∧ p.testBit j = false ∧ m.testBit j = true := by
  have hp32 : p < 2 ^ 32 := by omega
  have key : ∀ j, ((c &&& int_not p) &&& m).testBit j
      = (c.testBit j && (decide (j < 32) && !p.testBit j) && m.testBit j) := by
    intro j
    have : int_not p = 2 ^ 32 - (p + 1) := by unfold int_not; omega
    rw [Nat.testBit_and, Nat.testBit_and, this, Nat.testBit_two_pow_sub_succ hp32]
  constructor
  · intro h
    obtain ⟨j, hj⟩ := Nat.ne_zero_implies_bit_true h
    rw [key] at hj
    simp only [Bool.and_eq_true, decide_eq_true_eq, Bool.not_eq_true'] at hj
    refine ⟨j, ?_, hj.1.1, hj.1.2.2, hj.2⟩
    by_contra hge
    have : c < 2 ^ j := lt_of_lt_of_le hc (by
      calc 256 = 2 ^ 8 := by norm_num
        _ ≤ 2 ^ j := Nat.pow_le_pow_right (by norm_num) (by omega))
    rw [Nat.testBit_lt_two_pow this] at hj
    exact absurd hj.1.1 (by simp)
  · rintro ⟨j, hj, h1, h2, h3⟩ h0
    have := key j
    rw [h0, h1, h2, h3] at this
    simp at this
    omega

theorem scan_new_press_spec (ks old mask : List Nat) (n : Nat) (hn : n ≤ KEYMAP_SIZE) :
    (NewPressFrom ks old mask n → scan_new_press ks old mask n = 1) ∧
    (¬ NewPressFrom ks old mask n → scan_new_press ks old mask n = 0) := by
  induction n with
  | zero =>
    refine ⟨?_, fun _ => rfl⟩
    rintro ⟨i, h1, h2, _⟩
    omega
  | succ n ih =>
    have ih := ih (by omega)
    by_cases hc : (byte_at ks (KEYMAP_SIZE - (n + 1))
        &&& int_not (byte_at old (KEYMAP_SIZE - (n + 1))))
        &&& byte_at mask (KEYMAP_SIZE - (n + 1)) ≠ 0
    · have hex : NewPressFrom ks old mask (n + 1) :=
        ⟨KEYMAP_SIZE - (n + 1), le_refl _, by omega, hc⟩
      refine ⟨fun _ => ?_, fun h => absurd hex h⟩
      simp only [scan_new_press, if_pos hc]
    · have hiff : NewPressFrom ks old mask (n + 1) ↔ NewPressFrom ks old mask n := by
        constructor
        · rintro ⟨i, h1, h2, h3⟩
          refine ⟨i, ?_, h2, h3⟩
          by_contra hlt
          have : i = KEYMAP_SIZE - (n + 1) := by omega
          subst this
          exact hc h3
        · rintro ⟨i, h1, h2, h3⟩
          exact ⟨i, by omega, h2, h3⟩
      simp only [scan_new_press, if_neg hc, hiff]
      exact ih

theorem scan_unmasked_spec (ks mask : List Nat) (ret : Int) (n : Nat) (hn : n ≤ KEYMAP_SIZE) :
    (UnmaskedFrom ks mask n → scan_unmasked ks mask ret n = 0) ∧
    (¬ UnmaskedFrom ks mask n → scan_unmasked ks mask ret n = ret) := by
  induction n with
  | zero =>
    refine ⟨?_, fun _ => rfl⟩
    rintro ⟨i, h1, h2, _⟩
    omega
  | succ n ih =>
    have ih := ih (by omega)
    by_cases hc : byte_at ks (KEYMAP_SIZE - (n + 1))
        &&& int_not (byte_at mask (KEYMAP_SIZE - (n + 1))) ≠ 0
    · have hex : UnmaskedFrom ks mask (n + 1) :=
        ⟨KEYMAP_SIZE - (n + 1), le_refl _, by omega, hc⟩
      refine ⟨fun _ => ?_, fun h => absurd hex h⟩
      simp only [scan_unmasked, if_pos hc]
    · have hiff : UnmaskedFrom ks mask (n + 1) ↔ UnmaskedFrom ks mask n := by
        constructor
        · rintro ⟨i, h1, h2, h3⟩
          refine ⟨i, ?_, h2, h3⟩
          by_contra hlt
          have : i = KEYMAP_SIZE - (n + 1) := by omega
          subst this
          exact hc h3
        · rintro ⟨i, h1, h2, h3⟩
          exact ⟨i, by omega, h2, h3⟩
      simp only [scan_unmasked, if_neg hc, hiff]
      exact ih

theorem byte_at_lt (a : List Nat) (h : IsKeymap a) (i : Nat) : byte_at a i < 256 := by
  unfold byte_at
  by_cases hi : i < a.length
  · rw [List.getD_eq_getElem _ _ hi]
    exact h.2 _ (List.getElem_mem _)
  · rw [List.getD_eq_default _ _ (by omega)]
    norm_num

theorem foldl_or_map_range (p : Nat → Bool) (n : Nat) :
    ((List.range n).map p).foldl (fun acc b => acc || b) false = true ↔
      ∃ i, i < n ∧ p i = true := by
  induction n with
  | zero => simp
  | succ n ih =>
    rw [List.range_succ, List.map_append, List.foldl_append]
    simp only [List.map_cons, List.map_nil, List.foldl_cons, List.foldl_nil, Bool.or_eq_true, ih]
    constructor
    · rintro (⟨i, hi, h⟩ | h)
      · exact ⟨i, by omega, h⟩
      · exact ⟨n, by omega, h⟩
    · rintro ⟨i, hi, h⟩
      by_cases hin : i = n
      · subst hin; exact Or.inr h
      · exact Or.inl ⟨i, by omega, h⟩

theorem copy_key_state_eq (a : List Nat) (h : a.length = KEYMAP_SIZE) : copy_key_state a = a := by
  apply List.ext_getElem
  · simp [copy_key_state, h]
  · intro i h1 h2
    simp only [copy_key_state, byte_at, List.getElem_map, List.getElem_range]
    exact List.getD_eq_getElem _ _ h2

theorem newPress_iff_key (C P M : List Nat) (hC : IsKeymap C) (hP : IsKeymap P) :
    NewPressFrom C P M KEYMAP_SIZE ↔
      ∃ k, k < 256 ∧ key_bit C k = true ∧ key_bit P k = false ∧ key_bit M k = true := by
  constructor
  · rintro ⟨i, _, hi, h⟩
    obtain ⟨j, hj, h1, h2, h3⟩ :=
      (byte_and_not_and_ne_zero _ _ _ (byte_at_lt C hC i) (byte_at_lt P hP i)).1 h
    have hi32 : i < 32 := hi
    refine ⟨8 * i + j, by omega, ?_, ?_, ?_⟩ <;>
      simp only [key_bit, show (8 * i + j) / 8 = i by omega, show (8 * i + j) % 8 = j by omega] <;>
      assumption
  · rintro ⟨k, hk, h1, h2, h3⟩
    refine ⟨k / 8, by omega, show k / 8 < 32 by omega, ?_⟩
    exact (byte_and_not_and_ne_zero _ _ _ (byte_at_lt C hC _) (byte_at_lt P hP _)).2
      ⟨k % 8, by omega, h1, h2, h3⟩

theorem byte_and_not_ne_zero (c m : Nat) (hc : c < 256) (hm : m < 256) :
    c &&& int_not m ≠ 0 ↔ ∃ j, j < 8 ∧ c.testBit j = true ∧ m.testBit j = false := by
  have h := byte_and_not_and_ne_zero c m c hc hm
  have hcc : (c &&& int_not m) &&& c = c &&& int_not m := by
    apply Nat.eq_of_testBit_eq
    intro i
    simp only [Nat.testBit_and]
    cases c.testBit i <;> simp
  rw [hcc] at h
  rw [h]
  constructor
  · rintro ⟨j, hj, h1, h2, _⟩
    exact ⟨j, hj, h1, h2⟩
  · rintro ⟨j, hj, h1, h2⟩
    exact ⟨j, hj, h1, h2, h1⟩

theorem unmasked_iff_key (C M : List Nat) (hC : IsKeymap C) (hM : IsKeymap M) :
    UnmaskedFrom C M KEYMAP_SIZE ↔
      ∃ k, k < 256 ∧ key_bit C k = true ∧ key_bit M k = false := by
  constructor
  · rintro ⟨i, _, hi, h⟩
    obtain ⟨j, hj, h1, h2⟩ :=
      (byte_and_not_ne_zero _ _ (byte_at_lt C hC i) (byte_at_lt M hM i)).1 h
    have hi32 : i < 32 := hi
    refine ⟨8 * i + j, by omega, ?_, ?_⟩ <;>
      simp only [key_bit, show (8 * i + j) / 8 = i by omega, show (8 * i + j) % 8 = j by omega] <;>
      assumption
  · rintro ⟨k, hk, h1, h2⟩
    refine ⟨k / 8, by omega, show k / 8 < 32 by omega, ?_⟩
    exact (byte_and_not_ne_zero _ _ (byte_at_lt C hC _) (byte_at_lt M hM _)).2
      ⟨k % 8, by omega, h1, h2⟩

theorem full_scan_pressed_iff (C P M : List Nat) :
    ((List.range KEYMAP_SIZE).map fun i =>
      decide ((byte_at C i &&& int_not (byte_at P i)) &&& byte_at M i ≠ 0)).foldl
        (fun acc b => acc || b) false = true ↔ NewPressFrom C P M KEYMAP_SIZE := by
  rw [foldl_or_map_range]
  constructor
  · rintro ⟨i, hi, h⟩
    exact ⟨i, by omega, hi, of_decide_eq_true h⟩
  · rintro ⟨i, _, hi, h⟩
    exact ⟨i, hi, decide_eq_true h⟩

theorem full_scan_unmasked_iff (C M : List Nat) :
    ((List.range KEYMAP_SIZE).map fun i =>
      decide (byte_at C i &&& int_not (byte_at M i) ≠ 0)).foldl
        (fun acc b => acc || b) false = true ↔ UnmaskedFrom C M KEYMAP_SIZE := by
  rw [foldl_or_map_range]
  constructor
  · rintro ⟨i, hi, h⟩
    exact ⟨i, by omega, hi, of_decide_eq_true h⟩
  · rintro ⟨i, _, hi, h⟩
    exact ⟨i, hi, decide_eq_true h⟩

theorem keyboard_activity_cases (combos : Int) (M P C : List Nat) :
    ((keyboard_activity combos M P C).1 ≠ 0 ↔
      NewPressFrom C P M KEYMAP_SIZE ∧ (combos ≠ 0 → ¬ UnmaskedFrom C M KEYMAP_SIZE)) ∧
    (keyboard_activity combos M P C).1 = activity_full_scan combos M P C := by
  have hN := scan_new_press_spec C P M KEYMAP_SIZE (le_refl _)
  have hfN := full_scan_pressed_iff C P M
  have hfU := full_scan_unmasked_iff C M
  simp only [keyboard_activity, activity_full_scan]
  by_cases hc : combos ≠ 0
  · simp only [if_pos hc]
    by_cases hu : UnmaskedFrom C M KEYMAP_SIZE
    · rw [(scan_unmasked_spec C M _ KEYMAP_SIZE (le_refl _)).1 hu, if_pos (hfU.2 hu)]
      exact ⟨⟨fun h => absurd rfl h, fun h => absurd hu (h.2 hc)⟩, rfl⟩
    · rw [(scan_unmasked_spec C M _ KEYMAP_SIZE (le_refl _)).2 hu,
        if_neg (fun h => hu (hfU.1 h))]
      by_cases hn : NewPressFrom C P M KEYMAP_SIZE
      · rw [hN.1 hn, if_pos (hfN.2 hn)]
        exact ⟨⟨fun _ => ⟨hn, fun _ => hu⟩, fun _ => by decide⟩, rfl⟩
      · rw [hN.2 hn, if_neg (fun h => hn (hfN.1 h))]
        exact ⟨⟨fun h => absurd rfl h, fun h => absurd h.1 hn⟩, rfl⟩
  · simp only [if_neg hc]
    by_cases hn : NewPressFrom C P M KEYMAP_SIZE
    · rw [hN.1 hn, if_pos (hfN.2 hn)]
      exact ⟨⟨fun _ => ⟨hn, fun h => absurd h hc⟩, fun _ => by decide⟩, rfl⟩
    · rw [hN.2 hn, if_neg (fun h => hn (hfN.1 h))]
      exact ⟨⟨fun h => absurd rfl h, fun h => absurd h.1 hn⟩, rfl⟩

/-- C1: `keyboard_activity` returns non-zero exactly when some key code has its
bit set in `C & ~P & M` and, if `ignore_modifier_combos` is set, no key code has
its bit set in `C & ~M`.  So the result is zero when every newly pressed key has
its mask bit clear, and it is zero under `ignore_modifier_combos` when a key with
a clear mask bit is down.  The loops that leave early return what a scan of all
32 bytes returns, and the new `old_key_state` is the current snapshot. -/
theorem keyboard_activity_spec (ignore_modifier_combos : Int) (M P C : List Nat)
    (hM : IsKeymap M) (hP : IsKeymap P) (hC : IsKeymap C) :
    ((keyboard_activity ignore_modifier_combos M P C).1 ≠ 0 ↔
      (∃ k, k < 256 ∧ key_bit C k = true ∧ key_bit P k = false ∧ key_bit M k = true) ∧
      (ignore_modifier_combos ≠ 0 →
        ¬ ∃ k, k < 256 ∧ key_bit C k = true ∧ key_bit M k = false)) ∧
    ((∀ k, k < 256 → key_bit C k = true → key_bit P k = false → key_bit M k = false) →
      (keyboard_activity ignore_modifier_combos M P C).1 = 0) ∧
    (ignore_modifier_combos ≠ 0 →
      (∃ k, k < 256 ∧ key_bit C k = true ∧ key_bit M k = false) →
      (keyboard_activity ignore_modifier_combos M P C).1 = 0) ∧
    (keyboard_activity ignore_modifier_combos M P C).1
      = activity_full_scan ignore_modifier_combos M P C ∧
    (keyboard_activity ignore_modifier_combos M P C).2 = C := by
  have h := keyboard_activity_cases ignore_modifier_combos M P C
  rw [newPress_iff_key C P M hC hP, unmasked_iff_key C M hC hM] at h
  refine ⟨h.1, ?_, ?_, h.2, copy_key_state_eq C hC.1⟩
  · intro hall
    by_contra hne
    obtain ⟨⟨k, hk, h1, h2, h3⟩, _⟩ := h.1.1 hne
    rw [hall k hk h1 h2] at h3
    exact absurd h3 (by simp)
  · intro hc hex
    by_contra hne
    exact (h.1.1 hne).2 hc hex

theorem keyboard_activity_spec_witness :
    IsKeymap all_ones ∧ IsKeymap no_keys ∧ IsKeymap key_38 ∧
    (keyboard_activity 1 all_ones no_keys key_38).1 = 1 ∧
    ((keyboard_activity 1 all_ones no_keys key_38).1 ≠ 0 ↔
      (∃ k, k < 256 ∧ key_bit key_38 k = true ∧ key_bit no_keys k = false
        ∧ key_bit all_ones k = true) ∧
      ((1 : Int) ≠ 0 →
        ¬ ∃ k, k < 256 ∧ key_bit key_38 k = true ∧ key_bit all_ones k = false)) :=
  ⟨by decide, by decide, by decide, by decide,
    (keyboard_activity_spec 1 all_ones no_keys key_38 (by decide) (by decide) (by decide)).1⟩

/-! ### The device state controller -/

theorem toggle_enable_of_disabled (rd : Option Nat) (s : Controller) (h : s.pad_disabled = true) :
    toggle_touchpad true rd s =
      XChangeDeviceProperty (to_char s.previous_state)
        (print_unless_background "Enable\n" { s with pad_disabled := false }) := by
  simp [toggle_touchpad, h]

theorem toggle_disable_of_enabled (rd : Option Nat) (s : Controller)
    (h : s.pad_disabled = false) (hp : s.previous_state ≠ disable_state) :
    toggle_touchpad false rd s =
      XChangeDeviceProperty (to_char disable_state)
        (print_unless_background "Disable\n"
          { store_current_touchpad_state rd s with pad_disabled := true }) := by
  simp [toggle_touchpad, h, hp]

theorem toggle_true_of_enabled (rd : Option Nat) (s : Controller) (h : s.pad_disabled = false) :
    toggle_touchpad true rd s = s := by
  simp [toggle_touchpad, h]

theorem toggle_false_of_disabled (rd : Option Nat) (s : Controller) (h : s.pad_disabled = true) :
    toggle_touchpad false rd s = s := by
  simp [toggle_touchpad, h]

theorem toggle_false_of_zero (rd : Option Nat) (s : Controller)
    (h : s.previous_state = disable_state) :
    toggle_touchpad false rd s = s := by
  simp [toggle_touchpad, h]

theorem print_pad_disabled (line : String) (s : Controller) :
    (print_unless_background line s).pad_disabled = s.pad_disabled := by
  unfold print_unless_background; split <;> rfl

theorem print_writes (line : String) (s : Controller) :
    (print_unless_background line s).writes = s.writes := by
  unfold print_unless_background; split <;> rfl

theorem print_previous_state (line : String) (s : Controller) :
    (print_unless_background line s).previous_state = s.previous_state := by
  unfold print_unless_background; split <;> rfl

theorem store_writes (rd : Option Nat) (s : Controller) :
    (store_current_touchpad_state rd s).writes = s.writes := by
  unfold store_current_touchpad_state; cases rd <;> rfl

/-- C2: two calls of `toggle_touchpad` with the same argument, whatever the
device read would return in either, append at most one byte to the writes in
total, and the second call leaves the whole state as the first left it (no write,
no read, no output, no change of the statics). -/
theorem toggle_touchpad_twice (enable : Bool) (rd₁ rd₂ : Option Nat) (s : Controller) :
    toggle_touchpad enable rd₂ (toggle_touchpad enable rd₁ s) = toggle_touchpad enable rd₁ s ∧
    (toggle_touchpad enable rd₂ (toggle_touchpad enable rd₁ s)).writes.length
      ≤ s.writes.length + 1 := by
  have hlen : (toggle_touchpad enable rd₁ s).writes.length ≤ s.writes.length + 1 := by
    unfold toggle_touchpad
    split
    · simp [XChangeDeviceProperty, print_writes]
    · split
      · simp [XChangeDeviceProperty, print_writes, store_writes]
      · omega
  have hsame : toggle_touchpad enable rd₂ (toggle_touchpad enable rd₁ s)
      = toggle_touchpad enable rd₁ s := by
    cases enable
    · by_cases hd : s.pad_disabled = true
      · rw [toggle_false_of_disabled rd₁ s hd, toggle_false_of_disabled rd₂ s hd]
      · have hd : s.pad_disabled = false := by simpa using hd
        by_cases hp : s.previous_state = disable_state
        · rw [toggle_false_of_zero rd₁ s hp, toggle_false_of_zero rd₂ s hp]
        · rw [toggle_disable_of_enabled rd₁ s hd hp]
          apply toggle_false_of_disabled
          simp [XChangeDeviceProperty, print_pad_disabled]
    · by_cases hd : s.pad_disabled = true
      · rw [toggle_enable_of_disabled rd₁ s hd]
        apply toggle_true_of_enabled
        simp [XChangeDeviceProperty, print_pad_disabled]
      · have hd : s.pad_disabled = false := by simpa using hd
        rw [toggle_true_of_enabled rd₁ s hd, toggle_true_of_enabled rd₂ s hd]
  exact ⟨hsame, by rw [hsame]; exact hlen⟩

theorem char_byte_to_char (x : Int) (h0 : 0 ≤ x) (h1 : x < 256) :
    (char_byte (to_char x) : Int) = x := by
  unfold char_byte to_char
  rw [Int.toNat_of_nonneg (by omega)]
  omega

theorem XChange_getLast (data : Int) (s : Controller) :
    (XChangeDeviceProperty data s).writes.getLast? = some (char_byte data) := by
  simp [XChangeDeviceProperty]

theorem char_byte_disable : char_byte (to_char disable_state) = 0 := by decide

theorem store_previous_state_byte (rd : Option Nat) (s : Controller)
    (h0 : 0 ≤ s.previous_state) (h1 : s.previous_state < 256) :
    0 ≤ (store_current_touchpad_state rd s).previous_state ∧
    (store_current_touchpad_state rd s).previous_state < 256 := by
  unfold store_current_touchpad_state
  cases rd with
  | none => exact ⟨h0, h1⟩
  | some d =>
    simp only [to_uchar]
    omega

theorem startup_inv (background : Int) (device : Nat) (rd : Option Nat) :
    ControllerInv (startup background device rd) := by
  refine ⟨?_, ?_, ?_⟩
  · exact (store_previous_state_byte rd _ (le_refl _) (by norm_num)).1
  · exact (store_previous_state_byte rd _ (le_refl _) (by norm_num)).2
  · intro w hw
    rw [startup, store_writes] at hw
    simp at hw

theorem toggle_inv (enable : Bool) (rd : Option Nat) (s : Controller) (h : ControllerInv s) :
    ControllerInv (toggle_touchpad enable rd s) := by
  obtain ⟨h0, h1, h2⟩ := h
  by_cases hd : s.pad_disabled = true
  · cases enable
    · rw [toggle_false_of_disabled rd s hd]; exact ⟨h0, h1, h2⟩
    · rw [toggle_enable_of_disabled rd s hd]
      refine ⟨?_, ?_, ?_⟩
      · simpa [XChangeDeviceProperty, print_previous_state] using h0
      · simpa [XChangeDeviceProperty, print_previous_state] using h1
      · intro w hw
        rw [XChange_getLast, Option.some.injEq] at hw
        subst hw
        simp only [XChangeDeviceProperty, print_pad_disabled, print_previous_state]
        exact ⟨fun h => by simp at h, fun _ => char_byte_to_char _ h0 h1⟩
  · have hd : s.pad_disabled = false := by simpa using hd
    cases enable
    · by_cases hp : s.previous_state = disable_state
      · rw [toggle_false_of_zero rd s hp]; exact ⟨h0, h1, h2⟩
      · rw [toggle_disable_of_enabled rd s hd hp]
        have hb := store_previous_state_byte rd s h0 h1
        refine ⟨?_, ?_, ?_⟩
        · simpa [XChangeDeviceProperty, print_previous_state] using hb.1
        · simpa [XChangeDeviceProperty, print_previous_state] using hb.2
        · intro w hw
          rw [XChange_getLast, Option.some.injEq] at hw
          subst hw
          simp only [XChangeDeviceProperty, print_pad_disabled]
          exact ⟨fun _ => char_byte_disable, fun h => by simp at h⟩
    · rw [toggle_true_of_enabled rd s hd]; exact ⟨h0, h1, h2⟩

theorem toggle_calls_inv (calls : List (Bool × Option Nat)) (s : Controller)
    (h : ControllerInv s) : ControllerInv (toggle_calls calls s) := by
  induction calls generalizing s with
  | nil => exact h
  | cons c rest ih =>
    obtain ⟨enable, rd⟩ := c
    exact ih _ (toggle_inv enable rd s h)

/-- C3, as amended: in every state reached from `startup` by `toggle_touchpad`
calls, whatever the device reads return, if `w` is the last byte written then
`pad_disabled` implies `w = 0`, and `w = 0` implies that `pad_disabled` is set or
`previous_state` is 0; so the two are equivalent whenever `previous_state` is
not 0. -/
theorem pad_disabled_last_write (background : Int) (device : Nat) (rd₀ : Option Nat)
    (calls : List (Bool × Option Nat)) (w : Nat)
    (hw : (toggle_calls calls (startup background device rd₀)).writes.getLast? = some w) :
    ((toggle_calls calls (startup background device rd₀)).pad_disabled = true → w = 0) ∧
    (w = 0 → (toggle_calls calls (startup background device rd₀)).pad_disabled = true ∨
      (toggle_calls calls (startup background device rd₀)).previous_state = 0) ∧
    ((toggle_calls calls (startup background device rd₀)).previous_state ≠ 0 →
      ((toggle_calls calls (startup background device rd₀)).pad_disabled = true ↔ w = 0)) := by
  obtain ⟨_, _, h2⟩ := toggle_calls_inv calls _ (startup_inv background device rd₀)
  have h := h2 w hw
  have hzero : w = 0 → (toggle_calls calls (startup background device rd₀)).pad_disabled = true ∨
      (toggle_calls calls (startup background device rd₀)).previous_state = 0 := by
    intro hw0
    cases hd : (toggle_calls calls (startup background device rd₀)).pad_disabled
    · right
      rw [← h.2 hd, hw0]; rfl
    · left; rfl
  refine ⟨h.1, hzero, fun hp => ⟨h.1, fun hw0 => ?_⟩⟩
  rcases hzero hw0 with h' | h'
  · exact h'
  · exact absurd h' hp

theorem pad_disabled_last_write_witness :
    (toggle_calls [(false, some 1)] (startup 0 1 (some 1))).writes.getLast? = some 0 ∧
    (toggle_calls [(false, some 1)] (startup 0 1 (some 1))).pad_disabled = true ∧
    ((toggle_calls [(false, some 1)] (startup 0 1 (some 1))).previous_state ≠ 0 →
      ((toggle_calls [(false, some 1)] (startup 0 1 (some 1))).pad_disabled = true ↔ 0 = 0)) :=
  ⟨by decide, by decide,
    (pad_disabled_last_write 0 1 (some 1) [(false, some 1)] 0 (by decide)).2.2⟩

/-- C3 as stated fails: the device reads 1 at startup and 0 just before the
suppressing write; after `toggle_touchpad(False)` and `toggle_touchpad(True)` two
bytes have been written, the last one is `disable_state`, and `pad_disabled` is
clear. -/
theorem pad_disabled_iff_last_write_fails :
    ¬ ∀ (background : Int) (device : Nat) (rd₀ : Option Nat)
        (calls : List (Bool × Option Nat)),
        (toggle_calls calls (startup background device rd₀)).writes ≠ [] →
        ((toggle_calls calls (startup background device rd₀)).pad_disabled = true ↔
          (toggle_calls calls (startup background device rd₀)).writes.getLast?
            = some (char_byte (to_char disable_state))) := by
  intro h
  have h' := h 0 1 (some 1) [(false, some 0), (true, none)] (by decide)
  revert h'
  decide

theorem toggle_calls_false_of_disabled (rds : List (Option Nat)) (s : Controller)
    (h : s.pad_disabled = true) :
    toggle_calls (rds.map fun rd => (false, rd)) s = s := by
  induction rds with
  | nil => rfl
  | cons rd rest ih =>
    simp only [List.map_cons, toggle_calls]
    rw [toggle_false_of_disabled rd s h]
    exact ih

theorem suppress_state (s : Controller) (v : Nat) (hv : v < 256)
    (hd : s.pad_disabled = false) (hp : s.previous_state ≠ disable_state) :
    (toggle_touchpad false (some v) s).pad_disabled = true ∧
    (toggle_touchpad false (some v) s).previous_state = (v : Int) ∧
    (toggle_touchpad false (some v) s).device = char_byte (to_char disable_state) ∧
    (toggle_touchpad false (some v) s).writes = s.writes ++ [char_byte (to_char disable_state)] := by
  rw [toggle_disable_of_enabled (some v) s hd hp]
  refine ⟨?_, ?_, rfl, ?_⟩
  · simp [XChangeDeviceProperty, print_pad_disabled]
  · simp only [XChangeDeviceProperty, print_previous_state, store_current_touchpad_state,
      to_uchar]
    have : v % 256 = v := Nat.mod_eq_of_lt hv
    rw [this]
  · simp [XChangeDeviceProperty, print_writes, store_current_touchpad_state]

/-- C5: from an enabled controller whose `previous_state` is not
`disable_state`, let the device hold the byte `v` when `toggle_touchpad(False)`
reads it.  That call leaves the property at `disable_state` and sets
`pad_disabled`; any number of further `toggle_touchpad(False)` calls change
nothing; then `toggle_touchpad(True)`, from the poll loop or from
`signal_handler`, writes exactly `v`, leaves the property at `v` and clears
`pad_disabled`.  The conversions `int -> char -> unsigned char` return `v`. -/
theorem suppress_then_restore (s : Controller) (v : Nat) (rds : List (Option Nat))
    (rd : Option Nat) (signum : Int) (pid_file : Option String)
    (hv : v < 256) (hd : s.pad_disabled = false) (hp : s.previous_state ≠ disable_state) :
    (toggle_touchpad false (some v) s).device = 0 ∧
    (toggle_touchpad false (some v) s).writes = s.writes ++ [0] ∧
    (toggle_touchpad false (some v) s).pad_disabled = true ∧
    toggle_calls (rds.map fun r => (false, r)) (toggle_touchpad false (some v) s)
      = toggle_touchpad false (some v) s ∧
    (toggle_touchpad true rd
      (toggle_calls (rds.map fun r => (false, r)) (toggle_touchpad false (some v) s))).device = v ∧
    (toggle_touchpad true rd
      (toggle_calls (rds.map fun r => (false, r)) (toggle_touchpad false (some v) s))).writes
        = s.writes ++ [0, v] ∧
    (toggle_touchpad true rd
      (toggle_calls (rds.map fun r => (false, r)) (toggle_touchpad false (some v) s))).pad_disabled
        = false ∧
    (signal_handler signum rd
      { ctl := toggle_calls (rds.map fun r => (false, r)) (toggle_touchpad false (some v) s)
        pid_file := pid_file, unlinked := [], raised := [] }).ctl
      = toggle_touchpad true rd
          (toggle_calls (rds.map fun r => (false, r)) (toggle_touchpad false (some v) s)) ∧
    char_byte (to_char (v : Int)) = v := by
  obtain ⟨h1, h2, h3, h4⟩ := suppress_state s v hv hd hp
  have hidle := toggle_calls_false_of_disabled rds _ h1
  have hbyte : char_byte (to_char (v : Int)) = v := by
    have := char_byte_to_char (v : Int) (by omega) (by omega)
    exact_mod_cast this
  rw [char_byte_disable] at h3 h4
  rw [hidle, toggle_enable_of_disabled rd _ h1, h2]
  refine ⟨h3, h4, h1, rfl, ?_, ?_, ?_, ?_, hbyte⟩
  · simp only [XChangeDeviceProperty, hbyte]
  · simp only [XChangeDeviceProperty, print_writes, h4, hbyte, List.append_assoc,
      List.singleton_append]
  · simp [XChangeDeviceProperty, print_pad_disabled]
  · simp only [signal_handler]
    rw [toggle_enable_of_disabled rd _ h1, h2]

theorem suppress_then_restore_witness :
    (toggle_touchpad true none
      (toggle_calls ([none, some 7].map fun r => (false, r))
        (toggle_touchpad false (some 200) (startup 0 1 (some 1))))).writes = [0, 200] ∧
    (toggle_touchpad true none
      (toggle_calls ([none, some 7].map fun r => (false, r))
        (toggle_touchpad false (some 200) (startup 0 1 (some 1))))).device = 200 :=
  ⟨by decide,
    (suppress_then_restore (startup 0 1 (some 1)) 200 [none, some 7] none 15 none
      (by decide) (by decide) (by decide)).2.2.2.2.1⟩

theorem toggle_of_enabled_zero (enable : Bool) (rd : Option Nat) (s : Controller)
    (hd : s.pad_disabled = false) (hp : s.previous_state = disable_state) :
    toggle_touchpad enable rd s = s := by
  cases enable
  · exact toggle_false_of_zero rd s hp
  · exact toggle_true_of_enabled rd s hd

theorem main_loop_tick_ctl (cfg : LoopConfig) (tk : Tick) (l : Loop) :
    (main_loop_tick cfg tk l).ctl =
      toggle_touchpad
        (decide (tk.current_time > round_double (next_last_activity cfg tk l + cfg.idle_time)))
        tk.rd l.ctl := by
  simp only [main_loop_tick]
  split <;> rename_i h <;> simp [h]

theorem step_ctl_of_enabled_zero (cfg : LoopConfig) (e : Event) (d : Daemon)
    (hd : d.loop.ctl.pad_disabled = false) (hp : d.loop.ctl.previous_state = disable_state) :
    (Daemon.step cfg e d).loop.ctl = d.loop.ctl := by
  cases e with
  | tick tk =>
    simp only [Daemon.step]
    rw [main_loop_tick_ctl]
    exact toggle_of_enabled_zero _ _ _ hd hp
  | signal signum rd =>
    simp only [Daemon.step, signal_handler]
    exact toggle_of_enabled_zero _ _ _ hd hp

/-- C10: when `pad_disabled` is clear and `previous_state` equals
`disable_state`, every `toggle_touchpad` call returns the controller unchanged
(no read, no write, same statics), and so does every sequence of poll ticks and
handled signals. -/
theorem inert_when_previous_state_is_disable_state (cfg : LoopConfig) (events : List Event)
    (d : Daemon) (hd : d.loop.ctl.pad_disabled = false)
    (hp : d.loop.ctl.previous_state = disable_state) :
    (∀ enable rd, toggle_touchpad enable rd d.loop.ctl = d.loop.ctl) ∧
    (Daemon.run cfg events d).loop.ctl = d.loop.ctl := by
  refine ⟨fun enable rd => toggle_of_enabled_zero enable rd _ hd hp, ?_⟩
  induction events generalizing d with
  | nil => rfl
  | cons e rest ih =>
    have hstep := step_ctl_of_enabled_zero cfg e d hd hp
    simp only [Daemon.run]
    rw [ih (Daemon.step cfg e d) (by rw [hstep]; exact hd) (by rw [hstep]; exact hp), hstep]

theorem inert_when_previous_state_is_disable_state_witness :
    (startup 0 0 none).pad_disabled = false ∧
    (startup 0 0 none).previous_state = disable_state ∧
    (Daemon.run sample_config
      [Event.tick ⟨100, key_38, some 1⟩, Event.tick ⟨102, key_38, some 1⟩, Event.signal 15 (some 1)]
      { loop := { last_activity := 0, old_key_state := no_keys, ctl := startup 0 0 none }
        pid_file := none, unlinked := [], raised := [] }).loop.ctl = startup 0 0 none :=
  ⟨by decide, by decide,
    (inert_when_previous_state_is_disable_state sample_config
      [Event.tick ⟨100, key_38, some 1⟩, Event.tick ⟨102, key_38, some 1⟩, Event.signal 15 (some 1)]
      { loop := { last_activity := 0, old_key_state := no_keys, ctl := startup 0 0 none }
        pid_file := none, unlinked := [], raised := [] } (by decide) (by decide)).2⟩

/-! ### Double arithmetic -/

theorem rne_intCast (z : ℤ) : rne (z : ℚ) = z := by
  unfold rne
  simp

theorem floor_le_rne (q : ℚ) : ⌊q⌋ ≤ rne q := by
  unfold rne
  split
  · exact le_refl _
  · split
    · omega
    · split <;> omega

theorem rne_le_floor_add_one (q : ℚ) : rne q ≤ ⌊q⌋ + 1 := by
  unfold rne
  split
  · omega
  · split
    · omega
    · split <;> omega

theorem rne_mono {x y : ℚ} (h : x ≤ y) : rne x ≤ rne y := by
  have hf : ⌊x⌋ ≤ ⌊y⌋ := Int.floor_mono h
  rcases lt_or_eq_of_le hf with hlt | heq
  · exact le_trans (rne_le_floor_add_one x) (le_trans (by omega) (floor_le_rne y))
  · have hxy : x - ⌊x⌋ ≤ y - ⌊y⌋ := by rw [heq]; linarith
    unfold rne
    rw [heq]
    by_cases h1 : y - ⌊y⌋ < 1 / 2
    · rw [if_pos h1, if_pos (by rw [← heq]; exact lt_of_le_of_lt hxy h1)]
    · rw [if_neg h1]
      by_cases h2 : 1 / 2 < y - ⌊y⌋
      · rw [if_pos h2]
        split
        · omega
        · split
          · omega
          · split <;> omega
      · rw [if_neg h2]
        have hy : y - ⌊y⌋ = 1 / 2 := le_antisymm (not_lt.mp h2) (not_lt.mp h1)
        by_cases h3 : x - ⌊y⌋ < 1 / 2
        · rw [if_pos h3]; split <;> omega
        · rw [if_neg h3]
          have hx : ¬ (1 / 2 < x - ⌊y⌋) := by
            rw [heq] at hxy; rw [hy] at hxy; exact not_lt.mpr hxy
          rw [if_neg hx]


theorem two_zpow_pos (e : ℤ) : (0 : ℚ) < 2 ^ e := zpow_pos (by norm_num) e

theorem log_two_spec {x : ℚ} (hx : 0 < x) :
    (2 : ℚ) ^ Int.log 2 x ≤ x ∧ x < (2 : ℚ) ^ (Int.log 2 x + 1) := by
  have h1 := Int.zpow_log_le_self (b := 2) (r := x) (by norm_num) hx
  have h2 := Int.lt_zpow_succ_log_self (b := 2) (by norm_num) x
  simp only [Nat.cast_ofNat] at h1 h2
  exact ⟨h1, h2⟩

theorem scaled_lt {x : ℚ} (hx : 0 < x) : x / 2 ^ double_exponent x < 2 ^ (53 : ℤ) := by
  rw [div_lt_iff₀ (two_zpow_pos _), ← zpow_add₀ (by norm_num : (2 : ℚ) ≠ 0)]
  have h2 := (log_two_spec hx).2
  have he : Int.log 2 x + 1 ≤ 53 + double_exponent x := by
    unfold double_exponent
    rw [abs_of_pos hx]
    have := le_max_left (Int.log 2 x - 52) (-1074)
    omega
  exact lt_of_lt_of_le h2 (zpow_le_zpow_right₀ (by norm_num) he)

theorem le_scaled {x : ℚ} (hx : 0 < x) (he : -1074 < double_exponent x) :
    (2 : ℚ) ^ (52 : ℤ) ≤ x / 2 ^ double_exponent x := by
  rw [le_div_iff₀ (two_zpow_pos _), ← zpow_add₀ (by norm_num : (2 : ℚ) ≠ 0)]
  have h1 := (log_two_spec hx).1
  have heq : 52 + double_exponent x = Int.log 2 x := by
    unfold double_exponent at he ⊢
    rw [abs_of_pos hx] at he ⊢
    rcases max_cases (Int.log 2 x - 52) (-1074) with ⟨h, _⟩ | ⟨h, _⟩
    · rw [h]; omega
    · rw [h] at he; omega
  rw [heq]; exact h1

theorem double_exponent_mono {x y : ℚ} (hx : 0 < x) (h : x ≤ y) :
    double_exponent x ≤ double_exponent y := by
  unfold double_exponent
  rw [abs_of_pos hx, abs_of_pos (lt_of_lt_of_le hx h)]
  have := Int.log_mono_right (b := 2) hx h
  exact max_le_max (by omega) (le_refl _)

theorem round_double_mono_pos {x y : ℚ} (hx : 0 < x) (h : x ≤ y) :
    round_double x ≤ round_double y := by
  have hy : 0 < y := lt_of_lt_of_le hx h
  rcases lt_or_eq_of_le (double_exponent_mono hx h) with hlt | heq
  · -- different binades: the top of the lower one separates the two results
    have hxm : (rne (x / 2 ^ double_exponent x) : ℚ) ≤ 2 ^ (53 : ℤ) := by
      have := rne_mono (le_of_lt (scaled_lt hx))
      have h53 : ((2 : ℚ) ^ (53 : ℤ)) = ((2 ^ 53 : ℤ) : ℚ) := by norm_num
      rw [h53, rne_intCast] at this
      rw [h53]; exact_mod_cast this
    have hym : (2 : ℚ) ^ (52 : ℤ) ≤ (rne (y / 2 ^ double_exponent y) : ℚ) := by
      have := rne_mono (le_scaled hy (by
        have := le_max_right (Int.log 2 |x| - 52) (-1074)
        unfold double_exponent at hlt ⊢
        omega))
      have h52 : ((2 : ℚ) ^ (52 : ℤ)) = ((2 ^ 52 : ℤ) : ℚ) := by norm_num
      rw [h52, rne_intCast] at this
      rw [h52]; exact_mod_cast this
    unfold round_double
    calc (rne (x / 2 ^ double_exponent x) : ℚ) * 2 ^ double_exponent x
        ≤ 2 ^ (53 : ℤ) * 2 ^ double_exponent x :=
          mul_le_mul_of_nonneg_right hxm (le_of_lt (two_zpow_pos _))
      _ = 2 ^ (53 + double_exponent x) := (zpow_add₀ (by norm_num) _ _).symm
      _ ≤ 2 ^ (52 + double_exponent y) := zpow_le_zpow_right₀ (by norm_num) (by omega)
      _ = 2 ^ (52 : ℤ) * 2 ^ double_exponent y := zpow_add₀ (by norm_num) _ _
      _ ≤ (rne (y / 2 ^ double_exponent y) : ℚ) * 2 ^ double_exponent y :=
          mul_le_mul_of_nonneg_right hym (le_of_lt (two_zpow_pos _))
  · unfold round_double
    rw [← heq]
    apply mul_le_mul_of_nonneg_right _ (le_of_lt (two_zpow_pos _))
    exact_mod_cast rne_mono (div_le_div_of_nonneg_right h (le_of_lt (two_zpow_pos _)))


theorem rne_neg (q : ℚ) : rne (-q) = -rne q := by
  by_cases hint : (⌊q⌋ : ℚ) = q
  · rw [← hint, ← Int.cast_neg, rne_intCast, rne_intCast]
  · have hlt : (⌊q⌋ : ℚ) < q := lt_of_le_of_ne (Int.floor_le q) hint
    have hfl : ⌊-q⌋ = -⌊q⌋ - 1 := by
      rw [Int.floor_eq_iff]
      have := Int.lt_floor_add_one q
      push_cast
      constructor <;> linarith
    unfold rne
    rw [hfl]
    push_cast
    by_cases h1 : q - ⌊q⌋ < 1 / 2
    · rw [if_pos h1, if_neg (by linarith), if_pos (by linarith)]
      omega
    · rw [if_neg h1]
      by_cases h2 : 1 / 2 < q - ⌊q⌋
      · rw [if_pos h2, if_pos (by linarith)]
        omega
      · rw [if_neg h2, if_neg (by linarith), if_neg (by linarith)]
        split <;> split <;> omega

theorem double_exponent_neg (x : ℚ) : double_exponent (-x) = double_exponent x := by
  unfold double_exponent
  rw [abs_neg]

theorem round_double_neg (x : ℚ) : round_double (-x) = -round_double x := by
  unfold round_double
  rw [double_exponent_neg, neg_div, rne_neg]
  push_cast
  ring

theorem round_double_nonneg {x : ℚ} (hx : 0 ≤ x) : 0 ≤ round_double x := by
  unfold round_double
  apply mul_nonneg _ (le_of_lt (two_zpow_pos _))
  have := rne_mono (div_nonneg hx (le_of_lt (two_zpow_pos (double_exponent x))))
  rw [show (0 : ℚ) = ((0 : ℤ) : ℚ) by norm_num, rne_intCast] at this
  exact_mod_cast this

theorem round_double_nonpos {x : ℚ} (hx : x ≤ 0) : round_double x ≤ 0 := by
  have := round_double_nonneg (neg_nonneg.mpr hx)
  rw [round_double_neg] at this
  linarith

/-- Rounding to double is monotone. -/
theorem round_double_mono {x y : ℚ} (h : x ≤ y) : round_double x ≤ round_double y := by
  rcases lt_or_le 0 x with hx | hx
  · exact round_double_mono_pos hx h
  · rcases le_or_lt 0 y with hy | hy
    · exact le_trans (round_double_nonpos hx) (round_double_nonneg hy)
    · have := round_double_mono_pos (neg_pos.mpr hy) (neg_le_neg h)
      rw [round_double_neg, round_double_neg] at this
      linarith

/-- A double that is at most `x` is at most the double nearest to `x`. -/
theorem le_round_double {t x : ℚ} (ht : IsDouble t) (h : t ≤ x) : t ≤ round_double x := by
  have := round_double_mono h
  rw [ht.1] at this
  exact this


theorem log_two_eq {x : ℚ} {k : ℤ} (hx : 0 < x) (h1 : (2 : ℚ) ^ k ≤ x)
    (h2 : x < (2 : ℚ) ^ (k + 1)) : Int.log 2 x = k := by
  apply le_antisymm
  · have := (Int.lt_zpow_iff_log_lt (b := 2) (by norm_num) hx (x := k + 1)).1
      (by simpa using h2)
    omega
  · exact (Int.zpow_le_iff_le_log (b := 2) (by norm_num) hx).1 (by simpa using h1)

theorem double_exponent_eq {x : ℚ} {k : ℤ} (hx : 0 < x) (h1 : (2 : ℚ) ^ k ≤ x)
    (h2 : x < (2 : ℚ) ^ (k + 1)) : double_exponent x = max (k - 52) (-1074) := by
  unfold double_exponent
  rw [abs_of_pos hx, log_two_eq hx h1 h2]

theorem rne_eq_of_near {q : ℚ} {z : ℤ} (h1 : (z : ℚ) - 1 / 2 < q) (h2 : q < z + 1 / 2) :
    rne q = z := by
  by_cases hq : (z : ℚ) ≤ q
  · have hf : ⌊q⌋ = z := by
      rw [Int.floor_eq_iff]; constructor <;> linarith
    unfold rne
    rw [hf, if_pos (by linarith)]
  · have hf : ⌊q⌋ = z - 1 := by
      rw [Int.floor_eq_iff]; push_cast; constructor <;> linarith
    unfold rne
    rw [hf]
    push_cast
    rw [if_neg (by linarith), if_pos (by linarith)]
    omega

theorem round_double_of_multiple {x : ℚ} (z : ℤ) (h : x = z * 2 ^ double_exponent x) :
    round_double x = x := by
  unfold round_double
  have hq : x / 2 ^ double_exponent x = z := by
    rw [div_eq_iff (ne_of_gt (two_zpow_pos _))]
    exact h
  rw [hq, rne_intCast]
  exact h.symm

theorem isDouble_of_pos {x : ℚ} (k z : ℤ) (hx : 0 < x) (h1 : (2 : ℚ) ^ k ≤ x)
    (h2 : x < (2 : ℚ) ^ (k + 1)) (hk : k < 1024)
    (hz : x = z * 2 ^ max (k - 52) (-1074)) : IsDouble x := by
  refine ⟨round_double_of_multiple z ?_, ?_⟩
  · rw [double_exponent_eq hx h1 h2]; exact hz
  · rw [abs_of_pos hx]
    have hpow : (2 : ℚ) ^ (1024 : ℕ) = (2 : ℚ) ^ ((1024 : ℕ) : ℤ) := (zpow_natCast 2 1024).symm
    rw [hpow]
    exact lt_of_lt_of_le h2 (zpow_le_zpow_right₀ (by norm_num) (by omega))

/-! ### The poll loop -/

theorem held_key_no_activity :
    keyboard_activity 0 all_ones key_38 key_38 = (0, key_38) := by decide

theorem fresh_key_activity :
    keyboard_activity 0 all_ones no_keys key_38 = (1, key_38) := by decide

theorem seed_no_keys :
    keyboard_activity 0 all_ones no_keys no_keys = (0, no_keys) := by decide

theorem tick_last_activity (cfg : LoopConfig) (tk : Tick) (l : Loop) :
    (main_loop_tick cfg tk l).last_activity = next_last_activity cfg tk l := rfl

theorem tick_not_due_of_disabled (cfg : LoopConfig) (tk : Tick) (l : Loop)
    (hs : l.ctl.pad_disabled = true)
    (hnd : tk.current_time ≤ round_double (next_last_activity cfg tk l + cfg.idle_time)) :
    (main_loop_tick cfg tk l).ctl = l.ctl := by
  rw [main_loop_tick_ctl, decide_eq_false (not_lt.mpr hnd)]
  exact toggle_false_of_disabled _ _ hs

theorem not_due_of_idle_within (cfg : LoopConfig) (tk : Tick) (l : Loop)
    (hd : IsDouble tk.current_time) (hi : idle_at cfg tk l ≤ cfg.idle_time) :
    tk.current_time ≤ round_double (next_last_activity cfg tk l + cfg.idle_time) := by
  apply le_round_double hd
  unfold idle_at at hi
  linarith

theorem run_none_due_of_disabled (cfg : LoopConfig) (pre : List Tick) (l : Loop)
    (hs : l.ctl.pad_disabled = true) (hpre : NoneDue cfg pre l) :
    (main_loop_run cfg pre l).ctl = l.ctl := by
  induction pre generalizing l with
  | nil => rfl
  | cons tk rest ih =>
    obtain ⟨h1, h2⟩ := hpre
    have hstep := tick_not_due_of_disabled cfg tk l hs h1
    simp only [main_loop_run]
    rw [ih _ (by rw [hstep]; exact hs) h2, hstep]

theorem noneDue_take (cfg : LoopConfig) (pre : List Tick) (l : Loop) (n : Nat)
    (hpre : NoneDue cfg pre l) : NoneDue cfg (pre.take n) l := by
  induction pre generalizing l n with
  | nil => simpa using hpre
  | cons tk rest ih =>
    cases n with
    | zero => simp [NoneDue]
    | succ n =>
      simp only [List.take_succ_cons, NoneDue]
      exact ⟨hpre.1, ih _ n hpre.2⟩

theorem noneDue_of_allIdleWithin (cfg : LoopConfig) (pre : List Tick) (l : Loop)
    (hd : ∀ p ∈ pre, IsDouble p.current_time) (hpre : AllIdleWithin cfg pre l) :
    NoneDue cfg pre l := by
  induction pre generalizing l with
  | nil => trivial
  | cons tk rest ih =>
    exact ⟨not_due_of_idle_within cfg tk l (hd tk (List.mem_cons_self _ _)) hpre.1,
      ih _ (fun p hp => hd p (List.mem_cons_of_mem _ hp)) hpre.2⟩

theorem main_loop_run_append (cfg : LoopConfig) (pre post : List Tick) (l : Loop) :
    main_loop_run cfg (pre ++ post) l = main_loop_run cfg post (main_loop_run cfg pre l) := by
  induction pre generalizing l with
  | nil => rfl
  | cons tk rest ih =>
    rw [List.cons_append]
    simp only [main_loop_run]
    exact ih _

theorem enable_of_disabled (rd : Option Nat) (s : Controller) (hs : s.pad_disabled = true) :
    (toggle_touchpad true rd s).pad_disabled = false ∧
    (toggle_touchpad true rd s).writes = s.writes ++ [char_byte (to_char s.previous_state)] ∧
    (toggle_touchpad true rd s).device = char_byte (to_char s.previous_state) := by
  rw [toggle_enable_of_disabled _ _ hs]
  exact ⟨by simp [XChangeDeviceProperty, print_pad_disabled],
    by simp [XChangeDeviceProperty, print_writes], rfl⟩

/-- C4, as amended: a pass sets `last_activity` to `t` when its sample reports
activity and calls `toggle_touchpad(t > last_activity + idle_time)`, the sum
rounded to double; `idle` is `t - last_activity`.  A pass with a double
timestamp and `idle <= idle_time` is not due (the test is false), so a pass that
is due has `idle > idle_time`.  Starting suppressed, after every prefix of a run
in which no pass is due the controller is as it was (still suppressed, nothing
written), and so it is after a further pass that is not due; the first pass that
is due clears `pad_disabled` with exactly one write, the byte of
`previous_state`; and when `last_activity + idle_time` is itself a double, a
pass with `idle > idle_time` is due. -/
theorem hysteresis (cfg : LoopConfig) (pre : List Tick) (tk : Tick) (l : Loop)
    (hs : l.ctl.pad_disabled = true) (hpre : NoneDue cfg pre l) :
    (∀ (tk' : Tick) (l' : Loop),
      (main_loop_tick cfg tk' l').last_activity
        = (if (keyboard_activity cfg.ignore_modifier_combos cfg.keyboard_mask
              l'.old_key_state tk'.key_state).1 ≠ 0
           then tk'.current_time else l'.last_activity) ∧
      idle_at cfg tk' l' = tk'.current_time - (main_loop_tick cfg tk' l').last_activity ∧
      (main_loop_tick cfg tk' l').ctl =
        toggle_touchpad
          (decide (tk'.current_time
            > round_double ((main_loop_tick cfg tk' l').last_activity + cfg.idle_time)))
          tk'.rd l'.ctl ∧
      (IsDouble tk'.current_time → idle_at cfg tk' l' ≤ cfg.idle_time →
        tk'.current_time
          ≤ round_double ((main_loop_tick cfg tk' l').last_activity + cfg.idle_time)) ∧
      (IsDouble tk'.current_time →
        tk'.current_time
          > round_double ((main_loop_tick cfg tk' l').last_activity + cfg.idle_time) →
        idle_at cfg tk' l' > cfg.idle_time)) ∧
    (∀ (pre' : List Tick) (l' : Loop), (∀ p ∈ pre', IsDouble p.current_time) →
      AllIdleWithin cfg pre' l' → NoneDue cfg pre' l') ∧
    (∀ n, n ≤ pre.length → (main_loop_run cfg (pre.take n) l).ctl = l.ctl) ∧
    (tk.current_time
        ≤ round_double ((main_loop_run cfg (pre ++ [tk]) l).last_activity + cfg.idle_time) →
      (main_loop_run cfg (pre ++ [tk]) l).ctl = l.ctl) ∧
    (tk.current_time
        > round_double ((main_loop_run cfg (pre ++ [tk]) l).last_activity + cfg.idle_time) →
      (main_loop_run cfg (pre ++ [tk]) l).ctl.pad_disabled = false ∧
      (main_loop_run cfg (pre ++ [tk]) l).ctl.writes
        = l.ctl.writes ++ [char_byte (to_char l.ctl.previous_state)] ∧
      (main_loop_run cfg (pre ++ [tk]) l).ctl.device
        = char_byte (to_char l.ctl.previous_state)) ∧
    (round_double ((main_loop_run cfg (pre ++ [tk]) l).last_activity + cfg.idle_time)
        = (main_loop_run cfg (pre ++ [tk]) l).last_activity + cfg.idle_time →
      idle_at cfg tk (main_loop_run cfg pre l) > cfg.idle_time →
      (main_loop_run cfg (pre ++ [tk]) l).ctl.pad_disabled = false ∧
      (main_loop_run cfg (pre ++ [tk]) l).ctl.writes
        = l.ctl.writes ++ [char_byte (to_char l.ctl.previous_state)] ∧
      (main_loop_run cfg (pre ++ [tk]) l).ctl.device
        = char_byte (to_char l.ctl.previous_state)) := by
  have hrun := run_none_due_of_disabled cfg pre l hs hpre
  have hsnoc : main_loop_run cfg (pre ++ [tk]) l
      = main_loop_tick cfg tk (main_loop_run cfg pre l) := by
    rw [main_loop_run_append]; rfl
  have hgo : tk.current_time
        > round_double ((main_loop_run cfg (pre ++ [tk]) l).last_activity + cfg.idle_time) →
      (main_loop_run cfg (pre ++ [tk]) l).ctl.pad_disabled = false ∧
      (main_loop_run cfg (pre ++ [tk]) l).ctl.writes
        = l.ctl.writes ++ [char_byte (to_char l.ctl.previous_state)] ∧
      (main_loop_run cfg (pre ++ [tk]) l).ctl.device
        = char_byte (to_char l.ctl.previous_state) := by
    intro ht
    rw [hsnoc, tick_last_activity] at ht
    rw [hsnoc, main_loop_tick_ctl, decide_eq_true ht, hrun]
    exact enable_of_disabled _ _ hs
  refine ⟨fun tk' l' => ⟨?_, rfl, main_loop_tick_ctl cfg tk' l', ?_, ?_⟩,
    noneDue_of_allIdleWithin cfg, ?_, ?_, hgo, ?_⟩
  · simp only [main_loop_tick, next_last_activity]
  · intro hd hi
    rw [tick_last_activity]
    exact not_due_of_idle_within cfg tk' l' hd hi
  · intro hd ht
    by_contra hle
    rw [tick_last_activity] at ht
    exact absurd ht (not_lt.mpr (not_due_of_idle_within cfg tk' l' hd (not_lt.mp hle)))
  · intro n _
    exact run_none_due_of_disabled cfg _ l hs (noneDue_take cfg pre l n hpre)
  · intro hle
    rw [hsnoc, tick_last_activity] at hle
    rw [hsnoc, tick_not_due_of_disabled cfg tk _ (by rw [hrun]; exact hs) hle, hrun]
  · intro hrep hi
    apply hgo
    rw [hrep]
    rw [hsnoc, tick_last_activity]
    unfold idle_at at hi
    linarith

theorem isDouble_100 : IsDouble 100 :=
  isDouble_of_pos 6 (100 * 2 ^ 46) (by norm_num) (by norm_num) (by norm_num) (by norm_num)
    (by norm_num)

theorem isDouble_0_7 : IsDouble double_0_7 :=
  isDouble_of_pos (-1) 6305039478318694 (by norm_num [double_0_7]) (by norm_num [double_0_7])
    (by norm_num [double_0_7]) (by norm_num) (by norm_num [double_0_7])

theorem isDouble_100_7 : IsDouble double_100_7 :=
  isDouble_of_pos 6 7086132538690765 (by norm_num [double_100_7]) (by norm_num [double_100_7])
    (by norm_num [double_100_7]) (by norm_num) (by norm_num [double_100_7])

theorem round_100_plus_0_7 : round_double (100 + double_0_7) = double_100_7 := by
  have he : double_exponent (100 + double_0_7) = -46 := by
    rw [double_exponent_eq (k := 6) (by norm_num [double_0_7]) (by norm_num [double_0_7])
      (by norm_num [double_0_7])]
    rfl
  unfold round_double
  rw [he, rne_eq_of_near (z := 7086132538690765) (by norm_num [double_0_7])
    (by norm_num [double_0_7])]
  norm_num [double_100_7]

theorem round_double_zero : round_double 0 = 0 := by
  unfold round_double
  rw [zero_div, show (0 : ℚ) = ((0 : ℤ) : ℚ) by norm_num, rne_intCast]
  norm_num

theorem isDouble_700000 : IsDouble 700000 :=
  isDouble_of_pos 19 (700000 * 2 ^ 33) (by norm_num) (by norm_num) (by norm_num) (by norm_num)
    (by norm_num)

theorem round_700000_millionths : round_double (700000 / 1000000) = double_0_7 := by
  have he : double_exponent (700000 / 1000000 : ℚ) = -53 := by
    rw [double_exponent_eq (k := -1) (by norm_num) (by norm_num) (by norm_num)]
    rfl
  unfold round_double
  rw [he, rne_eq_of_near (z := 6305039478318694) (by norm_num) (by norm_num)]
  norm_num [double_0_7]

theorem get_time_100_0 : get_time 100 0 = 100 := by
  unfold get_time
  norm_num [isDouble_100.1, round_double_zero]

theorem get_time_100_700000 : get_time 100 700000 = double_100_7 := by
  unfold get_time
  simp only [Int.cast_ofNat]
  rw [isDouble_700000.1, round_700000_millionths, isDouble_100.1, round_100_plus_0_7]

/-- C4 as stated fails: with `-i 0.7`, the device enabled at the start, a key
press in the pass at 100.0 s and none in the pass at 100.7 s (the doubles that
`atof` and `get_time` return), the second pass has
`idle = 100.7 - 100.0 > 0.7 = idle_time`, yet it leaves the pad suppressed and
writes nothing: the sum `100.0 + 0.7` rounds up to the double 100.7. -/
theorem idle_above_threshold_not_enabled :
    IsDouble config_0_7.idle_time ∧ get_time 100 0 = 100 ∧
    get_time 100 700000 = double_100_7 ∧ IsDouble 100 ∧ IsDouble double_100_7 ∧
    fresh_loop.ctl.pad_disabled = false ∧
    (main_loop_run config_0_7 [⟨100, key_38, some 1⟩] fresh_loop).ctl.pad_disabled = true ∧
    (main_loop_run config_0_7 [⟨100, key_38, some 1⟩] fresh_loop).last_activity = 100 ∧
    idle_at config_0_7 ⟨double_100_7, key_38, some 1⟩
      (main_loop_run config_0_7 [⟨100, key_38, some 1⟩] fresh_loop) > config_0_7.idle_time ∧
    (main_loop_run config_0_7 [⟨100, key_38, some 1⟩, ⟨double_100_7, key_38, some 1⟩]
      fresh_loop).ctl.pad_disabled = true ∧
    (main_loop_run config_0_7 [⟨100, key_38, some 1⟩, ⟨double_100_7, key_38, some 1⟩]
      fresh_loop).ctl.writes = [0] ∧
    (main_loop_run config_0_7 [⟨100, key_38, some 1⟩, ⟨double_100_7, key_38, some 1⟩]
      fresh_loop).ctl
      = (main_loop_run config_0_7 [⟨100, key_38, some 1⟩] fresh_loop).ctl := by
  have h1 : main_loop_run config_0_7 [⟨100, key_38, some 1⟩] fresh_loop
      = { last_activity := 100, old_key_state := key_38,
          ctl := toggle_touchpad false (some 1) (startup 1 1 (some 1)) } := by
    simp only [main_loop_run, main_loop_tick, next_last_activity, fresh_loop, main_loop_enter,
      config_0_7, sample_config, seed_no_keys, fresh_key_activity]
    norm_num [round_100_plus_0_7, double_100_7]
  have h2 : main_loop_run config_0_7
      [⟨100, key_38, some 1⟩, ⟨double_100_7, key_38, some 1⟩] fresh_loop
      = { last_activity := 100, old_key_state := key_38,
          ctl := toggle_touchpad false (some 1) (startup 1 1 (some 1)) } := by
    have e : main_loop_run config_0_7
        [⟨100, key_38, some 1⟩, ⟨double_100_7, key_38, some 1⟩] fresh_loop
        = main_loop_tick config_0_7 ⟨double_100_7, key_38, some 1⟩
            (main_loop_run config_0_7 [⟨100, key_38, some 1⟩] fresh_loop) := rfl
    rw [e, h1]
    simp only [main_loop_tick, next_last_activity, config_0_7, held_key_no_activity]
    norm_num [round_100_plus_0_7]
    rfl
  refine ⟨isDouble_0_7, get_time_100_0, get_time_100_700000, isDouble_100, isDouble_100_7,
    by decide, ?_, ?_, ?_, ?_, ?_, ?_⟩
  · rw [h1]; decide
  · rw [h1]
  · rw [h1]
    simp only [idle_at, next_last_activity, config_0_7, held_key_no_activity]
    norm_num [double_100_7, double_0_7]
  · rw [h2]; decide
  · rw [h2]; decide
  · rw [h2, h1]

theorem isDouble_101 : IsDouble 101 :=
  isDouble_of_pos 6 (101 * 2 ^ 46) (by norm_num) (by norm_num) (by norm_num) (by norm_num)
    (by norm_num)

theorem hysteresis_witness :
    suppressed_loop.ctl.pad_disabled = true ∧
    NoneDue sample_config [⟨100 + 1 / 2, key_38, none⟩, ⟨101, key_38, none⟩] suppressed_loop ∧
    (main_loop_run sample_config
      ([⟨100 + 1 / 2, key_38, none⟩, ⟨101, key_38, none⟩] ++ [⟨101 + 1 / 2, key_38, none⟩])
      suppressed_loop).ctl.pad_disabled = false :=
  have h1 : NoneDue sample_config
      [⟨100 + 1 / 2, key_38, none⟩, ⟨101, key_38, none⟩] suppressed_loop := by
    simp only [NoneDue, next_last_activity, main_loop_tick, sample_config,
      suppressed_loop, held_key_no_activity]
    norm_num [isDouble_101.1]
  have h2 : idle_at sample_config ⟨101 + 1 / 2, key_38, none⟩
      (main_loop_run sample_config [⟨100 + 1 / 2, key_38, none⟩, ⟨101, key_38, none⟩]
        suppressed_loop) > sample_config.idle_time := by
    simp only [idle_at, next_last_activity, main_loop_tick, main_loop_run, sample_config,
      suppressed_loop, held_key_no_activity]
    norm_num
  have h3 : round_double ((main_loop_run sample_config
      ([⟨100 + 1 / 2, key_38, none⟩, ⟨101, key_38, none⟩] ++ [⟨101 + 1 / 2, key_38, none⟩])
      suppressed_loop).last_activity + sample_config.idle_time)
      = (main_loop_run sample_config
      ([⟨100 + 1 / 2, key_38, none⟩, ⟨101, key_38, none⟩] ++ [⟨101 + 1 / 2, key_38, none⟩])
      suppressed_loop).last_activity + sample_config.idle_time := by
    simp only [List.cons_append, List.nil_append, next_last_activity, main_loop_tick,
      main_loop_run, sample_config, suppressed_loop, held_key_no_activity]
    norm_num
    exact isDouble_101.1
  ⟨by decide, h1,
    ((hysteresis sample_config [⟨100 + 1 / 2, key_38, none⟩, ⟨101, key_38, none⟩]
      ⟨101 + 1 / 2, key_38, none⟩ suppressed_loop (by decide) h1).2.2.2.2.2 h3 h2).1⟩

/-! ### The six-pass scenario -/

theorem samples_six (cfg : LoopConfig) (tk1 tk2 tk3 tk4 tk5 tk6 : Tick) (l : Loop)
    (a1 a2 a3 a4 a5 a6 : Int)
    (hs : samples cfg [tk1, tk2, tk3, tk4, tk5, tk6] l.old_key_state = [a1, a2, a3, a4, a5, a6]) :
    next_last_activity cfg tk1 l = (if a1 ≠ 0 then tk1.current_time else l.last_activity) ∧
    next_last_activity cfg tk2 (main_loop_run cfg [tk1] l)
      = (if a2 ≠ 0 then tk2.current_time
          else (main_loop_run cfg [tk1] l).last_activity) ∧
    next_last_activity cfg tk3 (main_loop_run cfg [tk1, tk2] l)
      = (if a3 ≠ 0 then tk3.current_time
          else (main_loop_run cfg [tk1, tk2] l).last_activity) ∧
    next_last_activity cfg tk4 (main_loop_run cfg [tk1, tk2, tk3] l)
      = (if a4 ≠ 0 then tk4.current_time
          else (main_loop_run cfg [tk1, tk2, tk3] l).last_activity) ∧
    next_last_activity cfg tk5 (main_loop_run cfg [tk1, tk2, tk3, tk4] l)
      = (if a5 ≠ 0 then tk5.current_time
          else (main_loop_run cfg [tk1, tk2, tk3, tk4] l).last_activity) ∧
    next_last_activity cfg tk6 (main_loop_run cfg [tk1, tk2, tk3, tk4, tk5] l)
      = (if a6 ≠ 0 then tk6.current_time
          else (main_loop_run cfg [tk1, tk2, tk3, tk4, tk5] l).last_activity) := by
  simp only [samples, List.cons.injEq, and_true] at hs
  obtain ⟨e1, e2, e3, e4, e5, e6⟩ := hs
  refine ⟨?_, ?_, ?_, ?_, ?_, ?_⟩
  · simp only [next_last_activity, e1]
  · simp only [next_last_activity, main_loop_run, main_loop_tick, e2]
  · simp only [next_last_activity, main_loop_run, main_loop_tick, e3]
  · simp only [next_last_activity, main_loop_run, main_loop_tick, e4]
  · simp only [next_last_activity, main_loop_run, main_loop_tick, e5]
  · simp only [next_last_activity, main_loop_run, main_loop_tick, e6]


theorem quiet_step (cfg : LoopConfig) (tk : Tick) (l : Loop) (t0 : ℚ)
    (hd : l.ctl.pad_disabled = true) (hl : l.last_activity = t0)
    (hq : next_last_activity cfg tk l = l.last_activity)
    (hdbl : IsDouble tk.current_time)
    (ht : tk.current_time ≤ t0 + cfg.idle_time) :
    (main_loop_tick cfg tk l).ctl = l.ctl ∧ (main_loop_tick cfg tk l).last_activity = t0 := by
  refine ⟨?_, by rw [tick_last_activity, hq, hl]⟩
  rw [main_loop_tick_ctl, hq, hl, decide_eq_false (not_lt.mpr (le_round_double hdbl ht))]
  exact toggle_false_of_disabled _ _ hd

/-- A double `t` with `2 ^ k ≤ t` and `t + 1 < 2 ^ (k + 1)`, `0 ≤ k ≤ 52`, plus 1.0
is a double: the sum `last_activity + 1.0` is exact for every clock value whose
successor second lies in the same binade (as for every Unix time between 2004
and 2038, where `k = 30`). -/
theorem isDouble_add_one {t : ℚ} (k : ℤ) (ht : IsDouble t) (hk0 : 0 ≤ k)
    (hk : k ≤ 52) (h1 : (2 : ℚ) ^ k ≤ t) (h2 : t + 1 < (2 : ℚ) ^ (k + 1)) :
    IsDouble (t + 1) := by
  have hpos : (0 : ℚ) < t := lt_of_lt_of_le (two_zpow_pos k) h1
  have het : double_exponent t = k - 52 := by
    rw [double_exponent_eq hpos h1 (by linarith), max_eq_left (by omega)]
  have hone : (1 : ℚ) = ((2 ^ (52 - k).toNat : ℤ) : ℚ) * 2 ^ (k - 52) := by
    have hcast : (((52 - k).toNat : ℕ) : ℤ) = 52 - k := Int.toNat_of_nonneg (by omega)
    push_cast
    rw [← zpow_natCast, hcast, ← zpow_add₀ (by norm_num : (2 : ℚ) ≠ 0)]
    rw [show (52 - k + (k - 52) : ℤ) = 0 by ring, zpow_zero]
  have hfix := ht.1
  unfold round_double at hfix
  rw [het] at hfix
  apply isDouble_of_pos k (rne (t / 2 ^ (k - 52)) + 2 ^ (52 - k).toNat) (by linarith)
    (by linarith) h2 (by omega)
  rw [max_eq_left (by omega)]
  push_cast
  rw [add_mul, hfix]
  push_cast at hone
  rw [← hone]

/-- C6: threshold 1.0 s, device enabled at the start (`pad_disabled` clear,
`previous_state` not `disable_state`), activity in pass 1 and none in passes 2
to 6, double timestamps, passes 2 to 5 at most 1.0 s after pass 1 (as are passes
0.2, 0.4, 0.6 and 0.8 s after it), pass 6 more than 1.0 s after pass 1, and the
time of pass 1 plus 1.0 itself a double.  Pass 1 suppresses the pad with one
write of `disable_state`; passes 2 to 5 leave the controller as it is; pass 6
clears `pad_disabled` with exactly one write, the byte read before the
suppressing write. -/
theorem scenario_six_ticks (cfg : LoopConfig) (l : Loop) (tk1 tk2 tk3 tk4 tk5 tk6 : Tick)
    (a : Int) (hthr : cfg.idle_time = 1)
    (hen : l.ctl.pad_disabled = false) (hp : l.ctl.previous_state ≠ disable_state)
    (ha : a ≠ 0)
    (hs : samples cfg [tk1, tk2, tk3, tk4, tk5, tk6] l.old_key_state = [a, 0, 0, 0, 0, 0])
    (hd1 : IsDouble tk1.current_time) (hd2 : IsDouble tk2.current_time)
    (hd3 : IsDouble tk3.current_time) (hd4 : IsDouble tk4.current_time)
    (hd5 : IsDouble tk5.current_time)
    (h2 : tk2.current_time - tk1.current_time ≤ 1)
    (h3 : tk3.current_time - tk1.current_time ≤ 1)
    (h4 : tk4.current_time - tk1.current_time ≤ 1)
    (h5 : tk5.current_time - tk1.current_time ≤ 1)
    (h6 : tk6.current_time - tk1.current_time > 1)
    (hrep : IsDouble (tk1.current_time + 1)) :
    (main_loop_run cfg [tk1] l).ctl.pad_disabled = true ∧
    (main_loop_run cfg [tk1] l).ctl.writes = l.ctl.writes ++ [0] ∧
    (main_loop_run cfg [tk1] l).ctl.device = 0 ∧
    (main_loop_run cfg [tk1, tk2] l).ctl = (main_loop_run cfg [tk1] l).ctl ∧
    (main_loop_run cfg [tk1, tk2, tk3] l).ctl = (main_loop_run cfg [tk1] l).ctl ∧
    (main_loop_run cfg [tk1, tk2, tk3, tk4] l).ctl = (main_loop_run cfg [tk1] l).ctl ∧
    (main_loop_run cfg [tk1, tk2, tk3, tk4, tk5] l).ctl = (main_loop_run cfg [tk1] l).ctl ∧
    (main_loop_run cfg [tk1, tk2, tk3, tk4, tk5, tk6] l).ctl.pad_disabled = false ∧
    (main_loop_run cfg [tk1, tk2, tk3, tk4, tk5, tk6] l).ctl.writes
      = (main_loop_run cfg [tk1, tk2, tk3, tk4, tk5] l).ctl.writes
        ++ [char_byte (to_char (main_loop_run cfg [tk1] l).ctl.previous_state)] ∧
    (main_loop_run cfg [tk1, tk2, tk3, tk4, tk5, tk6] l).ctl.writes
      = l.ctl.writes
        ++ [0, char_byte (to_char (main_loop_run cfg [tk1] l).ctl.previous_state)] := by
  obtain ⟨n1, n2, n3, n4, n5, n6⟩ := samples_six cfg tk1 tk2 tk3 tk4 tk5 tk6 l a 0 0 0 0 0 hs
  rw [if_pos ha] at n1
  simp only [ne_eq, not_true_eq_false, if_false] at n2 n3 n4 n5 n6
  -- pass 1
  have hl1 : (main_loop_run cfg [tk1] l).last_activity = tk1.current_time := n1
  have hc1 : (main_loop_run cfg [tk1] l).ctl = toggle_touchpad false tk1.rd l.ctl := by
    show (main_loop_tick cfg tk1 l).ctl = _
    rw [main_loop_tick_ctl, n1, hthr,
      decide_eq_false (not_lt.mpr (le_round_double hd1 (by linarith)))]
  have hd : (main_loop_run cfg [tk1] l).ctl.pad_disabled = true := by
    rw [hc1, toggle_disable_of_enabled _ _ hen hp]
    simp [XChangeDeviceProperty, print_pad_disabled]
  have hw1 : (main_loop_run cfg [tk1] l).ctl.writes = l.ctl.writes ++ [0] := by
    rw [hc1, toggle_disable_of_enabled _ _ hen hp]
    simp [XChangeDeviceProperty, print_writes, store_writes, char_byte_disable]
  have hv1 : (main_loop_run cfg [tk1] l).ctl.device = 0 := by
    rw [hc1, toggle_disable_of_enabled _ _ hen hp]
    simp [XChangeDeviceProperty, char_byte_disable]
  -- passes 2 to 5
  have s2 := quiet_step cfg tk2 (main_loop_run cfg [tk1] l) tk1.current_time hd hl1 n2 hd2
    (by rw [hthr]; linarith)
  have e2 : main_loop_run cfg [tk1, tk2] l
      = main_loop_tick cfg tk2 (main_loop_run cfg [tk1] l) := rfl
  rw [← e2] at s2
  have s3 := quiet_step cfg tk3 (main_loop_run cfg [tk1, tk2] l) tk1.current_time
    (by rw [s2.1]; exact hd) s2.2 n3 hd3 (by rw [hthr]; linarith)
  have e3 : main_loop_run cfg [tk1, tk2, tk3] l
      = main_loop_tick cfg tk3 (main_loop_run cfg [tk1, tk2] l) := rfl
  rw [← e3] at s3
  have s4 := quiet_step cfg tk4 (main_loop_run cfg [tk1, tk2, tk3] l) tk1.current_time
    (by rw [s3.1, s2.1]; exact hd) s3.2 n4 hd4 (by rw [hthr]; linarith)
  have e4 : main_loop_run cfg [tk1, tk2, tk3, tk4] l
      = main_loop_tick cfg tk4 (main_loop_run cfg [tk1, tk2, tk3] l) := rfl
  rw [← e4] at s4
  have s5 := quiet_step cfg tk5 (main_loop_run cfg [tk1, tk2, tk3, tk4] l) tk1.current_time
    (by rw [s4.1, s3.1, s2.1]; exact hd) s4.2 n5 hd5 (by rw [hthr]; linarith)
  have e5 : main_loop_run cfg [tk1, tk2, tk3, tk4, tk5] l
      = main_loop_tick cfg tk5 (main_loop_run cfg [tk1, tk2, tk3, tk4] l) := rfl
  rw [← e5] at s5
  have c5 : (main_loop_run cfg [tk1, tk2, tk3, tk4, tk5] l).ctl
      = (main_loop_run cfg [tk1] l).ctl := by rw [s5.1, s4.1, s3.1, s2.1]
  -- pass 6
  have e6 : main_loop_run cfg [tk1, tk2, tk3, tk4, tk5, tk6] l
      = main_loop_tick cfg tk6 (main_loop_run cfg [tk1, tk2, tk3, tk4, tk5] l) := rfl
  have c6 : (main_loop_run cfg [tk1, tk2, tk3, tk4, tk5, tk6] l).ctl
      = toggle_touchpad true tk6.rd (main_loop_run cfg [tk1] l).ctl := by
    rw [e6, main_loop_tick_ctl, n6, s5.2, hthr, hrep.1, decide_eq_true (by linarith), c5]
  have en := enable_of_disabled tk6.rd _ hd
  rw [← c6] at en
  refine ⟨hd, hw1, hv1, s2.1, by rw [s3.1, s2.1], by rw [s4.1, s3.1, s2.1], c5, en.1, ?_, ?_⟩
  · rw [c5]; exact en.2.1
  · rw [en.2.1, hw1, List.append_assoc]; rfl

theorem scenario_six_ticks_witness :
    samples sample_config six_ticks fresh_loop.old_key_state = [1, 0, 0, 0, 0, 0] ∧
    (main_loop_run sample_config six_ticks fresh_loop).ctl.pad_disabled = false ∧
    (main_loop_run sample_config six_ticks fresh_loop).ctl.writes
      = (main_loop_run sample_config (six_ticks.take 5) fresh_loop).ctl.writes
        ++ [char_byte (to_char
          (main_loop_run sample_config (six_ticks.take 1) fresh_loop).ctl.previous_state)] :=
  have hs : samples sample_config six_ticks fresh_loop.old_key_state = [1, 0, 0, 0, 0, 0] := by
    simp only [samples, six_ticks, fresh_loop, main_loop_enter, sample_config, seed_no_keys,
      fresh_key_activity, held_key_no_activity]
  have h := scenario_six_ticks sample_config fresh_loop
    ⟨100, key_38, some 1⟩ ⟨100 + 13 / 64, key_38, some 1⟩ ⟨100 + 26 / 64, key_38, some 1⟩
    ⟨100 + 39 / 64, key_38, some 1⟩ ⟨100 + 52 / 64, key_38, some 1⟩
    ⟨100 + 65 / 64, key_38, some 1⟩ 1 rfl (by decide) (by decide) (by decide) hs
    isDouble_100
    (isDouble_of_pos 6 (6413 * 2 ^ 40) (by norm_num) (by norm_num) (by norm_num) (by norm_num)
      (by norm_num))
    (isDouble_of_pos 6 (6426 * 2 ^ 40) (by norm_num) (by norm_num) (by norm_num) (by norm_num)
      (by norm_num))
    (isDouble_of_pos 6 (6439 * 2 ^ 40) (by norm_num) (by norm_num) (by norm_num) (by norm_num)
      (by norm_num))
    (isDouble_of_pos 6 (6452 * 2 ^ 40) (by norm_num) (by norm_num) (by norm_num) (by norm_num)
      (by norm_num))
    (by norm_num) (by norm_num) (by norm_num) (by norm_num) (by norm_num)
    (isDouble_add_one 6 isDouble_100 (by norm_num) (by norm_num) (by norm_num)
      (by norm_num))
  ⟨hs, h.2.2.2.2.2.2.2.1, h.2.2.2.2.2.2.2.2.1⟩

/-! ### Defaults and device resolution -/

/-- C8: with no `-i` on the command line (here: no option at all, and
`-m 100 -d -k`) the idle threshold that `main` passes to the poll loop is 1,
not the 2.0 s that the usage text names as the default. -/
theorem default_idle_time_is_one :
    (main_options []).toOption.map (fun o => o.idle_time) = some 1 ∧
    (main_options [Opt.m 100, Opt.d, Opt.k]).toOption.map (fun o => o.idle_time) = some 1 ∧
    (main_options []).toOption.map (fun o => o.idle_time) ≠ some 2 := by
  have h1 : (main_options []).toOption.map (fun o => o.idle_time) = some 1 := by
    norm_num [main_options, parse_options, initial_options, Except.toOption]
  refine ⟨h1, ?_, ?_⟩
  · norm_num [main_options, parse_options, apply_option, initial_options, Except.toOption]
  · rw [h1]
    norm_num

theorem find_property_absent (device_prop : Nat) (properties : List Nat)
    (touchpad_off_prop n : Nat) (h : ∀ i, i < n → atom_at properties i ≠ device_prop) :
    find_property device_prop properties touchpad_off_prop n = (-1, touchpad_off_prop) := by
  induction n with
  | zero => rfl
  | succ n ih =>
    simp only [find_property]
    rw [if_neg (fun e => h n (Nat.lt_succ_self n) e.symm)]
    exact ih (fun i hi => h i (Nat.lt_succ_of_lt hi))

theorem find_property_at_zero (device_prop : Nat) (properties : List Nat)
    (touchpad_off_prop n : Nat) (h0 : atom_at properties 0 = device_prop)
    (h : ∀ i, 0 < i → i ≤ n → atom_at properties i ≠ device_prop) :
    find_property device_prop properties touchpad_off_prop (n + 1) = (0, device_prop) := by
  induction n with
  | zero => simp [find_property, h0]
  | succ n ih =>
    rw [find_property, if_neg (fun e => h (n + 1) (Nat.succ_pos n) (le_refl _) e.symm)]
    exact ih (fun i hi hle => h i hi (Nat.le_succ_of_le hle))

/-- C9: on a device whose property list `[101, 102]` lacks the `Device Enabled`
atom 150, `dp_get_device` returns the device without an error and leaves
`touchpad_off_prop` as it was, so `main` does not exit; on a device whose list
has the atom first (`[150]`, `[150, 101]`) it reports that the property could
not be identified and returns no device, so `main` exits with status 2; with
the atom elsewhere (`[101, 150]`) it succeeds. -/
theorem dp_get_device_property_check :
    dp_get_device sample_atoms [pad_with [101, 102]] 0 0 0
      = { dev := some 12, touchpad_off_prop := 0, error := 0, messages := [] } ∧
    resolve_device sample_atoms [pad_with [101, 102]] 0 0 0
      = .ok { dev := some 12, touchpad_off_prop := 0, error := 0, messages := [] } ∧
    dp_get_device sample_atoms [pad_with [150]] 0 0 0
      = { dev := none, touchpad_off_prop := 150, error := 1,
          messages := [.could_not_identify_property, .unable_to_find_a_device] } ∧
    resolve_device sample_atoms [pad_with [150]] 0 0 0 = .error 2 ∧
    resolve_device sample_atoms [pad_with [150, 101]] 0 0 0 = .error 2 ∧
    resolve_device sample_atoms [pad_with [101, 150]] 0 0 0
      = .ok { dev := some 12, touchpad_off_prop := 150, error := 0, messages := [] } := by
  refine ⟨by decide, rfl, by decide, rfl, rfl, rfl⟩

/-! ### The key mask -/

theorem testBit_byte_high (b i : Nat) (hb : b < 256) (hi : 8 ≤ i) : b.testBit i = false := by
  apply Nat.testBit_lt_two_pow
  calc b < 2 ^ 8 := by norm_num; exact hb
    _ ≤ 2 ^ i := Nat.pow_le_pow_right (by norm_num) hi

theorem testBit_cleared_byte (b j i : Nat) (hb : b < 256) (hj : j < 8) :
    (to_uchar (b &&& int_not (1 <<< j))).testBit i = (b.testBit i && decide (i ≠ j)) := by
  have h2 : (2 : Nat) ^ j < 2 ^ 32 := Nat.pow_lt_pow_right (by norm_num) (by omega)
  have hnot : int_not (1 <<< j) = 2 ^ 32 - (2 ^ j + 1) := by
    unfold int_not
    rw [Nat.one_shiftLeft]
    omega
  have hmod : to_uchar (b &&& int_not (1 <<< j)) = (b &&& int_not (1 <<< j)) % 2 ^ 8 := rfl
  rw [hmod, Nat.testBit_mod_two_pow, Nat.testBit_and, hnot, Nat.testBit_two_pow_sub_succ h2,
    Nat.testBit_two_pow]
  by_cases hi : i < 8
  · have hi32 : i < 32 := by omega
    by_cases hij : j = i
    · subst hij; simp
    · have : i ≠ j := fun h => hij h.symm
      simp [hi, hi32, hij, this]
  · rw [testBit_byte_high b i hb (by omega)]
    simp

theorem to_uchar_lt (x : Nat) : to_uchar x < 256 := Nat.mod_lt _ (by norm_num)

theorem clear_bit_eq (ptr : List Nat) (kc : Nat) (hp : IsKeymap ptr) (hk : kc < 256) :
    clear_bit ptr (kc : Int) = some (ptr.set (kc / 8)
      (to_uchar (byte_at ptr (kc / 8) &&& int_not (1 <<< (kc % 8))))) := by
  have hd : Int.tdiv (kc : Int) 8 = ((kc / 8 : Nat) : Int) := rfl
  have hm : Int.tmod (kc : Int) 8 = ((kc % 8 : Nat) : Int) := rfl
  have hlen : ptr.length = 32 := hp.1
  unfold clear_bit
  simp only [hd, hm, Int.toNat_ofNat]
  rw [if_pos]
  refine ⟨by omega, by omega, by omega⟩

theorem isKeymap_set (ptr : List Nat) (i v : Nat) (hp : IsKeymap ptr) (hv : v < 256) :
    IsKeymap (ptr.set i v) := by
  refine ⟨by rw [List.length_set]; exact hp.1, ?_⟩
  intro b hb
  rcases List.mem_or_eq_of_mem_set hb with h | h
  · exact hp.2 b h
  · rw [h]; exact hv

theorem byte_at_set (ptr : List Nat) (i v j : Nat) (hi : i < ptr.length) :
    byte_at (ptr.set i v) j = if j = i then v else byte_at ptr j := by
  unfold byte_at
  by_cases hji : j = i
  · subst hji
    rw [if_pos rfl, List.getD_eq_getElem _ _ (by rw [List.length_set]; exact hi)]
    simp
  · rw [if_neg hji]
    simp only [List.getD_eq_getElem?_getD]
    rw [List.getElem?_set_ne (fun h => hji h.symm)]

theorem key_bit_clear (ptr : List Nat) (kc k : Nat) (hp : IsKeymap ptr) (hk : kc < 256) :
    key_bit (ptr.set (kc / 8) (to_uchar (byte_at ptr (kc / 8) &&& int_not (1 <<< (kc % 8))))) k
      = (key_bit ptr k && decide (k ≠ kc)) := by
  have hlen : ptr.length = 32 := hp.1
  unfold key_bit
  rw [byte_at_set _ _ _ _ (by omega)]
  by_cases hb : k / 8 = kc / 8
  · rw [if_pos hb, testBit_cleared_byte _ _ _ (byte_at_lt ptr hp _) (by omega), hb]
    by_cases hj : k % 8 = kc % 8
    · have : k = kc := by omega
      simp [this]
    · have : k ≠ kc := fun h => hj (by rw [h])
      simp [hj, this]
  · rw [if_neg hb]
    have : k ≠ kc := fun h => hb (by rw [h])
    simp [this]

theorem occursFrom_succ (m : XModifierKeymap) (n k : Nat) (hn : n + 1 ≤ 8 * m.max_keypermod) :
    OccursFrom m (n + 1) k ↔
      byte_at m.modifiermap (8 * m.max_keypermod - (n + 1)) = k ∨ OccursFrom m n k := by
  constructor
  · rintro ⟨i, h1, h2, h3⟩
    by_cases hi : i = 8 * m.max_keypermod - (n + 1)
    · left; rw [← hi]; exact h3
    · right; exact ⟨i, by omega, h2, h3⟩
  · rintro (h | ⟨i, h1, h2, h3⟩)
    · exact ⟨_, le_refl _, by omega, h⟩
    · exact ⟨i, by omega, h2, h3⟩

theorem modifier_byte_lt (m : XModifierKeymap) (hm : IsModifierKeymap m) (i : Nat) :
    byte_at m.modifiermap i < 256 := by
  unfold byte_at
  by_cases hi : i < m.modifiermap.length
  · rw [List.getD_eq_getElem _ _ hi]
    exact hm.2 _ (List.getElem_mem _)
  · rw [List.getD_eq_default _ _ (by omega)]
    norm_num

theorem clear_modifiers_spec (m : XModifierKeymap) (hm : IsModifierKeymap m) (n : Nat)
    (hn : n ≤ 8 * m.max_keypermod) (mask : List Nat) (hmask : IsKeymap mask) :
    ∃ mask', clear_modifiers m n mask = some mask' ∧ IsKeymap mask' ∧
      ∀ k, (key_bit mask' k = true ↔ key_bit mask k = true ∧ ¬ (k ≠ 0 ∧ OccursFrom m n k)) := by
  induction n generalizing mask with
  | zero =>
    refine ⟨mask, rfl, hmask, fun k => ⟨fun h => ⟨h, ?_⟩, fun h => h.1⟩⟩
    rintro ⟨_, i, h1, h2, _⟩
    omega
  | succ n ih =>
    have hkc := modifier_byte_lt m hm (8 * m.max_keypermod - (n + 1))
    simp only [clear_modifiers]
    by_cases h0 : byte_at m.modifiermap (8 * m.max_keypermod - (n + 1)) = 0
    · rw [if_neg (by simpa using h0)]
      obtain ⟨mask', e, hk, hb⟩ := ih (by omega) mask hmask
      refine ⟨mask', e, hk, fun k => ?_⟩
      rw [hb k, occursFrom_succ m n k hn]
      constructor
      · rintro ⟨h1, h2⟩
        refine ⟨h1, ?_⟩
        rintro ⟨hk0, h | h⟩
        · exact hk0 (by rw [← h, h0])
        · exact h2 ⟨hk0, h⟩
      · rintro ⟨h1, h2⟩
        exact ⟨h1, fun h => h2 ⟨h.1, Or.inr h.2⟩⟩
    · rw [if_pos h0, clear_bit_eq mask _ hmask hkc]
      simp only []
      obtain ⟨mask', e, hk, hb⟩ := ih (by omega) _
        (isKeymap_set mask _ _ hmask (to_uchar_lt _))
      refine ⟨mask', e, hk, fun k => ?_⟩
      rw [hb k, key_bit_clear mask _ k hmask hkc, occursFrom_succ m n k hn]
      simp only [Bool.and_eq_true, decide_eq_true_eq]
      constructor
      · rintro ⟨⟨h1, hne⟩, h2⟩
        refine ⟨h1, ?_⟩
        rintro ⟨hk0, h | h⟩
        · exact hne h.symm
        · exact h2 ⟨hk0, h⟩
      · rintro ⟨h1, h2⟩
        refine ⟨⟨h1, ?_⟩, fun h => h2 ⟨h.1, Or.inr h.2⟩⟩
        intro hkeq
        refine h2 ⟨?_, Or.inl hkeq.symm⟩
        rw [hkeq]; exact h0

theorem key_bit_all_ones (k : Nat) (hk : k < 256) :
    key_bit (List.replicate KEYMAP_SIZE 0xff) k = true := by
  have h8 : k / 8 < 32 := by omega
  have hb : byte_at (List.replicate KEYMAP_SIZE 0xff) (k / 8) = 2 ^ 8 - 1 := by
    unfold byte_at
    rw [List.getD_eq_getElem _ _ (by simpa [KEYMAP_SIZE] using h8)]
    simp
  unfold key_bit
  rw [hb, Nat.testBit_two_pow_sub_one]
  exact decide_eq_true (Nat.mod_lt _ (by norm_num))

theorem isKeymap_all_ones : IsKeymap (List.replicate KEYMAP_SIZE 0xff) := by decide

theorem occursFrom_all_iff_mem (m : XModifierKeymap) (hm : IsModifierKeymap m) (k : Nat) :
    OccursFrom m (8 * m.max_keypermod) k ↔ k ∈ m.modifiermap := by
  constructor
  · rintro ⟨i, _, h2, h3⟩
    have hi : i < m.modifiermap.length := by rw [hm.1]; exact h2
    rw [← h3]
    unfold byte_at
    rw [List.getD_eq_getElem _ _ hi]
    exact List.getElem_mem _
  · intro h
    obtain ⟨i, hi, e⟩ := List.getElem_of_mem h
    refine ⟨i, by omega, by rw [← hm.1]; exact hi, ?_⟩
    unfold byte_at
    rw [List.getD_eq_getElem _ _ hi]
    exact e

/-- C7: for a well-formed modifier map, `setup_keyboard_mask` yields a keymap of
32 bytes (no access of `clear_bit` falls outside the array) in which bit `k`,
for every key code `k` below 256, is 0 exactly when `ignore_modifier_keys` is
set, `k` is not 0 and `k` occurs in the modifier map.  On any keymap and any
8-bit key code `clear_bit` stays inside the array and clears the addressed bit
only. -/
theorem setup_keyboard_mask_spec (ignore_modifier_keys : Int) (m : XModifierKeymap)
    (hm : IsModifierKeymap m) :
    (∃ mask, setup_keyboard_mask ignore_modifier_keys m = some mask ∧ IsKeymap mask ∧
      ∀ k, k < 256 →
        (key_bit mask k = false ↔ ignore_modifier_keys ≠ 0 ∧ k ≠ 0 ∧ k ∈ m.modifiermap)) ∧
    (∀ (ptr : List Nat) (kc : Nat), IsKeymap ptr → kc < 256 →
      ∃ ptr', clear_bit ptr (kc : Int) = some ptr' ∧ IsKeymap ptr' ∧
        ∀ k, key_bit ptr' k = (key_bit ptr k && decide (k ≠ kc))) := by
  constructor
  · unfold setup_keyboard_mask
    by_cases hi : ignore_modifier_keys ≠ 0
    · simp only [if_pos hi]
      obtain ⟨mask, e, hk, hb⟩ :=
        clear_modifiers_spec m hm (8 * m.max_keypermod) (le_refl _) _ isKeymap_all_ones
      refine ⟨mask, e, hk, fun k hk256 => ?_⟩
      rw [← Bool.not_eq_true, hb k, occursFrom_all_iff_mem m hm k]
      have hone := key_bit_all_ones k hk256
      constructor
      · intro h
        by_contra hcon
        exact h ⟨hone, fun h' => hcon ⟨hi, h'.1, h'.2⟩⟩
      · rintro ⟨_, h1, h2⟩ h
        exact h.2 ⟨h1, h2⟩
    · simp only [if_neg hi]
      refine ⟨_, rfl, isKeymap_all_ones, fun k hk256 => ?_⟩
      rw [key_bit_all_ones k hk256]
      exact ⟨fun h => by simp at h, fun h => absurd h.1 hi⟩
  · intro ptr kc hp hk
    exact ⟨_, clear_bit_eq ptr kc hp hk, isKeymap_set ptr _ _ hp (to_uchar_lt _),
      fun k => key_bit_clear ptr kc k hp hk⟩

theorem setup_keyboard_mask_spec_witness :
    IsModifierKeymap sample_modifiers ∧
    setup_keyboard_mask 1 sample_modifiers
      = some ((List.replicate 32 255).set 4 (255 - 32) |>.set 6 (255 - 4) |>.set 8 (255 - 1)) ∧
    ∃ mask, setup_keyboard_mask 1 sample_modifiers = some mask ∧ IsKeymap mask ∧
      ∀ k, k < 256 →
        (key_bit mask k = false ↔ (1 : Int) ≠ 0 ∧ k ≠ 0 ∧ k ∈ sample_modifiers.modifiermap) :=
  ⟨by decide, by decide, (setup_keyboard_mask_spec 1 sample_modifiers (by decide)).1⟩

end Touchdaemon
